import Mathlib

/-!
Verification of the facho electronic-invoicing core against its design
specification.  The Python sources under src/facho are shallowly embedded:
pure functions become Lean functions over ℚ (exact rational arithmetic in
place of IEEE doubles), Nat byte lists and String; the lxml element tree
becomes an inductive rose tree; external cryptographic and canonicalization
primitives (hashlib, cryptography, lxml c14n) are either implemented
faithfully (SHA-384) or passed as explicit function-valued inputs; Python
exceptions become explicit error results; sources of nondeterminism
(uuid4 draws, the wall clock, the network) become explicit inputs.
-/

namespace Facho

/-! ## Monetary truncation and formatting
Embedding of `truncar` (src/facho/fe/builders/taxes.py) and
`format_amount` (src/facho/fe/builders/cufe.py); `math.trunc` truncates
toward zero.  Two embeddings are given.  `truncar`/`format_amount` below
idealize Python floats as exact rationals, which is adequate where only
the produced digit strings feed into a hash (the identifier-string
embedding); `truncarF`/`format_amountF` further down embed the same two
functions over IEEE binary64 semantics — a float is the exact rational
it stores and every arithmetic step rounds its exact result to nearest,
ties to even — which is the faithful model for claims about the
truncation behaviour of the arithmetic itself. -/

/-- Embedding of Python `math.trunc` on a rational: truncation toward zero. -/
def truncQ (q : ℚ) : ℤ := if 0 ≤ q then q.floor else -((-q).floor)

/-- Embedding of `truncar(valor, decimales)` over exact rationals
(idealized arithmetic; the binary64-faithful form is `truncarF`):
`factor = 10 ** decimales; math.trunc(valor * factor) / factor`. -/
def truncar (valor : ℚ) (decimales : Nat := 2) : ℚ :=
  let factor : ℚ := 10 ^ decimales
  (truncQ (valor * factor) : ℚ) / factor

/-- Embedding of the fixed-point rendering `f"{q:.{d}f}"` for a rational `q`
that is an exact multiple of `10 ^ (-d)` (the only use site applies it to
the output of the exact-rational `truncar`, which always is).  Renders
sign, integer part and exactly `d` fractional digits. -/
def formatFixed (q : ℚ) (d : Nat) : String :=
  let n : ℤ := truncQ (q * 10 ^ d)
  let a := n.natAbs
  let p := 10 ^ d
  let digits := toString (a % p)
  let frac := String.mk (List.replicate (d - digits.length) '0') ++ digits
  (if n < 0 then "-" else "") ++ toString (a / p) ++
    (if d = 0 then "" else "." ++ frac)

/-- Embedding of `format_amount(value, decimals)` from cufe.py over exact
rationals (idealized arithmetic; the binary64-faithful form is
`format_amountF`):
`truncated = truncar(value, decimals); return f"{truncated:.{decimals}f}"`. -/
def format_amount (value : ℚ) (decimals : Nat := 2) : String :=
  formatFixed (truncar value decimals) decimals

/-! ## IEEE binary64 semantics for the monetary operations
The monetary amounts of the source are IEEE doubles.  A double is
modelled as the exact rational it stores; `roundDouble` is the binary64
rounding (to nearest, ties to even) applied to the exact result of each
arithmetic operation, as IEEE 754 prescribes for `*` and `/`.  Monetary
magnitudes lie far inside the binary64 normal range, so subnormals and
overflow are not modelled. -/

/-- Round a rational to the nearest integer, ties to even (also the
rounding CPython's correctly rounded float formatting applies at the
last kept digit). -/
def roundTiesEven (s : ℚ) : ℤ :=
  if s - ⌊s⌋ < 1 / 2 then ⌊s⌋
  else if 1 / 2 < s - ⌊s⌋ then ⌊s⌋ + 1
  else if ⌊s⌋ % 2 = 0 then ⌊s⌋ else ⌊s⌋ + 1

/-- Round `q` to the nearest integer multiple of `u`, ties to even. -/
def roundToMultiple (q u : ℚ) : ℚ := (roundTiesEven (q / u) : ℚ) * u

/-- For `q > 0`, the exponent `e` with `2 ^ e ≤ q < 2 ^ (e + 1)`. -/
def floorLog2Q (q : ℚ) : ℤ :=
  if 1 ≤ q then (Nat.log 2 ⌊q⌋.toNat : ℤ)
  else -(Nat.clog 2 ⌈q⁻¹⌉.toNat : ℤ)

/-- IEEE binary64 rounding (to nearest, ties to even) of a real value in
the normal range: the nearest multiple of the value's ulp
`2 ^ (e - 52)`, where `2 ^ e ≤ |value| < 2 ^ (e + 1)`. -/
def roundDouble (q : ℚ) : ℚ :=
  if q = 0 then 0
  else if 0 < q then roundToMultiple q (2 ^ (floorLog2Q q - 52))
  else -roundToMultiple (-q) (2 ^ (floorLog2Q (-q) - 52))

/-- Fixed-point digit rendering of the integer `n` of hundredths (for
`d = 2`): sign, integer part, point, `d` fractional digits. -/
def intFixedString (n : ℤ) (d : Nat) : String :=
  (if n < 0 then "-" else "") ++ toString (n.natAbs / 10 ^ d) ++
    (if d = 0 then ""
     else "." ++
       (String.mk
          (List.replicate (d - (toString (n.natAbs % 10 ^ d)).length) '0') ++
        toString (n.natAbs % 10 ^ d)))

/-- `f"{x:.{d}f}"` on a double storing the exact value `x`: CPython
formats floats by correct rounding of the stored value, so the rendered
digit string is `x * 10 ^ d` rounded to the nearest integer, ties to
even. -/
def formatFixedF (x : ℚ) (d : Nat) : String :=
  intFixedString (roundTiesEven (x * 10 ^ d)) d

/-- `truncar(valor, decimales)` under binary64 semantics: `valor` is the
stored value of the input double; the multiplication by the (exactly
representable) power of ten and the final division round to nearest
even; `math.trunc` on a double is exact. -/
def truncarF (valor : ℚ) (decimales : Nat := 2) : ℚ :=
  roundDouble ((truncQ (roundDouble (valor * 10 ^ decimales)) : ℚ) / 10 ^ decimales)

/-- `format_amount(value, decimals)` under binary64 semantics. -/
def format_amountF (value : ℚ) (decimals : Nat := 2) : String :=
  formatFixedF (truncarF value decimals) decimals

/-! ## SHA-384
Faithful implementation of `hashlib.sha384(...).hexdigest()` over byte
lists: SHA-512 compression (FIPS 180-4) with the SHA-384 initial value,
output truncated to the first six 64-bit words, rendered as lowercase hex.
Bytes and 64-bit words are `Nat` with explicit reduction mod `2 ^ 64`. -/

/-- 64-bit word modulus. -/
def w64 : Nat := 2 ^ 64

/-- Addition modulo `2 ^ 64`. -/
def add64 (a b : Nat) : Nat := (a + b) % w64

/-- Right rotation of a 64-bit word. -/
def rotr64 (n x : Nat) : Nat := ((x >>> n) ||| (x <<< (64 - n))) % w64

/-- SHA-512 Ch function. -/
def ch64 (x y z : Nat) : Nat := (x &&& y) ^^^ ((x ^^^ (w64 - 1)) &&& z)

/-- SHA-512 Maj function. -/
def maj64 (x y z : Nat) : Nat := (x &&& y) ^^^ (x &&& z) ^^^ (y &&& z)

/-- SHA-512 Σ₀. -/
def bigSigma0 (x : Nat) : Nat := rotr64 28 x ^^^ rotr64 34 x ^^^ rotr64 39 x

/-- SHA-512 Σ₁. -/
def bigSigma1 (x : Nat) : Nat := rotr64 14 x ^^^ rotr64 18 x ^^^ rotr64 41 x

/-- SHA-512 σ₀. -/
def smallSigma0 (x : Nat) : Nat := rotr64 1 x ^^^ rotr64 8 x ^^^ (x >>> 7)

/-- SHA-512 σ₁. -/
def smallSigma1 (x : Nat) : Nat := rotr64 19 x ^^^ rotr64 61 x ^^^ (x >>> 6)

/-- The 80 SHA-512 round constants (FIPS 180-4 §4.2.3), in decimal. -/
def sha512K : List Nat :=
  [4794697086780616226, 8158064640168781261, 13096744586834688815,
   16840607885511220156, 4131703408338449720, 6480981068601479193,
   10538285296894168987, 12329834152419229976, 15566598209576043074,
   1334009975649890238, 2608012711638119052, 6128411473006802146,
   8268148722764581231, 9286055187155687089, 11230858885718282805,
   13951009754708518548, 16472876342353939154, 17275323862435702243,
   1135362057144423861, 2597628984639134821, 3308224258029322869,
   5365058923640841347, 6679025012923562964, 8573033837759648693,
   10970295158949994411, 12119686244451234320, 12683024718118986047,
   13788192230050041572, 14330467153632333762, 15395433587784984357,
   489312712824947311, 1452737877330783856, 2861767655752347644,
   3322285676063803686, 5560940570517711597, 5996557281743188959,
   7280758554555802590, 8532644243296465576, 9350256976987008742,
   10552545826968843579, 11727347734174303076, 12113106623233404929,
   14000437183269869457, 14369950271660146224, 15101387698204529176,
   15463397548674623760, 17586052441742319658, 1182934255886127544,
   1847814050463011016, 2177327727835720531, 2830643537854262169,
   3796741975233480872, 4115178125766777443, 5681478168544905931,
   6601373596472566643, 7507060721942968483, 8399075790359081724,
   8693463985226723168, 9568029438360202098, 10144078919501101548,
   10430055236837252648, 11840083180663258601, 13761210420658862357,
   14299343276471374635, 14566680578165727644, 15097957966210449927,
   16922976911328602910, 17689382322260857208, 500013540394364858,
   748580250866718886, 1242879168328830382, 1977374033974150939,
   2944078676154940804, 3659926193048069267, 4368137639120453308,
   4836135668995329356, 5532061633213252278, 6448918945643986474,
   6902733635092675308, 7801388544844847127]

/-- The eight-word hash state. -/
structure Hash8 where
  a : Nat
  b : Nat
  c : Nat
  d : Nat
  e : Nat
  f : Nat
  g : Nat
  h : Nat

/-- SHA-384 initial hash value (FIPS 180-4 §5.3.4), in decimal. -/
def sha384IV : Hash8 :=
  ⟨14680500436340154072, 7105036623409894663, 10473403895298186519,
   1526699215303891257, 7436329637833083697, 10282925794625328401,
   15784041429090275239, 5167115440072839076⟩

/-- Big-endian 16-byte encoding of the message bit length. -/
def be16 (n : Nat) : List Nat :=
  (List.range 16).map (fun i => (n >>> (8 * (15 - i))) &&& 255)

/-- SHA-512 message padding: append 0x80, zeros, and the 128-bit length,
reaching a multiple of 128 bytes. -/
def padMessage (msg : List Nat) : List Nat :=
  let padZeros := (128 - ((msg.length + 17) % 128)) % 128
  msg ++ [0x80] ++ List.replicate padZeros 0 ++ be16 (8 * msg.length)

/-- Split a byte list into 128-byte blocks. -/
def blocks128 : List Nat → List (List Nat)
  | [] => []
  | x :: xs => (x :: xs).take 128 :: blocks128 ((x :: xs).drop 128)
termination_by l => l.length
decreasing_by simp; omega

/-- Big-endian interpretation of a byte list as one word. -/
def beWord (bs : List Nat) : Nat := bs.foldl (fun acc bv => acc * 256 + bv) 0

/-- The sixteen 64-bit words of one 128-byte block. -/
def blockWords (block : List Nat) : List Nat :=
  (List.range 16).map (fun i => beWord ((block.drop (8 * i)).take 8))

/-- One message-schedule extension step over the reversed schedule. -/
def extendOnce (acc : List Nat) : List Nat :=
  add64 (add64 (smallSigma1 (acc.getD 1 0)) (acc.getD 6 0))
      (add64 (smallSigma0 (acc.getD 14 0)) (acc.getD 15 0)) :: acc

/-- The 80-entry message schedule from the sixteen block words. -/
def schedule80 (ws : List Nat) : List Nat :=
  ((List.range 64).foldl (fun acc _ => extendOnce acc) ws.reverse).reverse

/-- One SHA-512 round. -/
def sha512Round (st : Hash8) (kw : Nat × Nat) : Hash8 :=
  let t1 := add64 (add64 (add64 st.h (bigSigma1 st.e))
      (add64 (ch64 st.e st.f st.g) kw.1)) kw.2
  let t2 := add64 (bigSigma0 st.a) (maj64 st.a st.b st.c)
  ⟨add64 t1 t2, st.a, st.b, st.c, add64 st.d t1, st.e, st.f, st.g⟩

/-- Compression of one 128-byte block. -/
def compressBlock (st : Hash8) (block : List Nat) : Hash8 :=
  let fin := (sha512K.zip (schedule80 (blockWords block))).foldl sha512Round st
  ⟨add64 st.a fin.a, add64 st.b fin.b, add64 st.c fin.c, add64 st.d fin.d,
   add64 st.e fin.e, add64 st.f fin.f, add64 st.g fin.g, add64 st.h fin.h⟩

/-- Final SHA-384 state over a byte message. -/
def sha384State (msg : List Nat) : Hash8 :=
  (blocks128 (padMessage msg)).foldl compressBlock sha384IV

/-- Big-endian byte decomposition of a 64-bit word. -/
def word8be (w : Nat) : List Nat :=
  [(w >>> 56) &&& 255, (w >>> 48) &&& 255, (w >>> 40) &&& 255, (w >>> 32) &&& 255,
   (w >>> 24) &&& 255, (w >>> 16) &&& 255, (w >>> 8) &&& 255, w &&& 255]

/-- The 48-byte SHA-384 digest: first six words of the final state. -/
def sha384Bytes (msg : List Nat) : List Nat :=
  let st := sha384State msg
  word8be st.a ++ word8be st.b ++ word8be st.c ++ word8be st.d ++
    word8be st.e ++ word8be st.f

/-- The sixteen lowercase hex digit characters. -/
def hexChars : List Char := "0123456789abcdef".toList

/-- Hex digit character for a value below 16. -/
def hexChar (n : Nat) : Char := hexChars.getD n '0'

/-- Two lowercase hex characters for a byte. -/
def byteToHex (b : Nat) : List Char := [hexChar (b / 16), hexChar (b % 16)]

/-- Lowercase hex string for a byte list, as `bytes.hex()` / `hexdigest()`. -/
def bytesToHex (bs : List Nat) : String := String.mk (bs.flatMap byteToHex)

/-- `hashlib.sha384(msg).hexdigest()`. -/
def sha384Hex (msg : List Nat) : String := bytesToHex (sha384Bytes msg)

/-- UTF-8 encoding of one character (RFC 3629). -/
def utf8Char (c : Char) : List Nat :=
  let n := c.toNat
  if n < 0x80 then [n]
  else if n < 0x800 then [0xC0 ||| (n >>> 6), 0x80 ||| (n &&& 0x3F)]
  else if n < 0x10000 then
    [0xE0 ||| (n >>> 12), 0x80 ||| ((n >>> 6) &&& 0x3F), 0x80 ||| (n &&& 0x3F)]
  else
    [0xF0 ||| (n >>> 18), 0x80 ||| ((n >>> 12) &&& 0x3F),
     0x80 ||| ((n >>> 6) &&& 0x3F), 0x80 ||| (n &&& 0x3F)]

/-- Embedding of Python `s.encode("utf-8")`. -/
def utf8Encode (s : String) : List Nat := s.toList.flatMap utf8Char

/-! ## CUFE / CUDE / CUDS (src/facho/fe/builders/cufe.py) -/

/-- Input record for the identifier calculators (`CufeInput`). -/
structure CufeInput where
  number : String
  issue_date : String
  issue_time : String
  subtotal : ℚ
  total : ℚ
  supplier_nit : String
  customer_nit : String
  technical_key : String
  environment : String := "2"
  iva_amount : ℚ := 0
  inc_amount : ℚ := 0
  ica_amount : ℚ := 0

/-- Embedding of `build_cufe_string(data)`: the order-significant field
concatenation hashed by the identifier calculators. -/
def build_cufe_string (data : CufeInput) : String :=
  data.number ++ data.issue_date ++ data.issue_time ++
  format_amount data.subtotal ++ "01" ++ format_amount data.iva_amount ++
  "04" ++ format_amount data.inc_amount ++ "03" ++ format_amount data.ica_amount ++
  format_amount data.total ++ data.supplier_nit ++ data.customer_nit ++
  data.technical_key ++ data.environment

/-- Embedding of `calculate_cufe(data)`:
`hashlib.sha384(build_cufe_string(data).encode("utf-8")).hexdigest()`. -/
def calculate_cufe (data : CufeInput) : String :=
  sha384Hex (utf8Encode (build_cufe_string data))

/-- Embedding of `calculate_cude(data, software_pin)`: when a non-empty
pin is supplied (Python truthiness of the optional argument) the input is
copied with `technical_key` replaced by the pin, then hashed as for CUFE. -/
def calculate_cude (data : CufeInput) (software_pin : Option String := none) :
    String :=
  match software_pin with
  | some pin =>
      if pin = "" then sha384Hex (utf8Encode (build_cufe_string data))
      else sha384Hex (utf8Encode (build_cufe_string { data with technical_key := pin }))
  | none => sha384Hex (utf8Encode (build_cufe_string data))

/-- Embedding of `calculate_cuds(data, software_pin)`: delegates to
`calculate_cude` unchanged. -/
def calculate_cuds (data : CufeInput) (software_pin : Option String := none) :
    String :=
  calculate_cude data software_pin

/-! ## XML element trees
Embedding of the lxml element trees the signers operate on: an element has
a namespace-qualified tag, an ordered attribute list, optional text and an
ordered child list.  Namespace-prefix declarations (`nsmap`) only affect
serialized bytes, which are behind the abstract canonicalization
primitives, so they are not represented. -/

/-- A namespace-qualified tag, Clark notation `(namespace, local name)`. -/
structure QName where
  ns : String
  localName : String
deriving DecidableEq

/-- An XML element: tag, attributes, text, children. -/
inductive XNode where
  | elem (tag : QName) (attrs : List (String × String)) (text : Option String)
      (children : List XNode)

mutual

def XNode.decEq : (a b : XNode) → Decidable (a = b)
  | XNode.elem t a s cs, XNode.elem t2 a2 s2 cs2 =>
    if h1 : t = t2 then
      if h2 : a = a2 then
        if h3 : s = s2 then
          match XNode.decEqList cs cs2 with
          | isTrue h4 => isTrue (by rw [h1, h2, h3, h4])
          | isFalse h4 => isFalse (fun h => h4 (by cases h; rfl))
        else isFalse (fun h => h3 (by cases h; rfl))
      else isFalse (fun h => h2 (by cases h; rfl))
    else isFalse (fun h => h1 (by cases h; rfl))

def XNode.decEqList : (xs ys : List XNode) → Decidable (xs = ys)
  | [], [] => isTrue rfl
  | [], _ :: _ => isFalse (fun h => List.noConfusion h)
  | _ :: _, [] => isFalse (fun h => List.noConfusion h)
  | x :: xs, y :: ys =>
    match XNode.decEq x y, XNode.decEqList xs ys with
    | isTrue h1, isTrue h2 => isTrue (by rw [h1, h2])
    | isFalse h1, _ => isFalse (fun h => h1 (by cases h; rfl))
    | _, isFalse h2 => isFalse (fun h => h2 (by cases h; rfl))

end

instance : DecidableEq XNode := XNode.decEq

/-- The tag of an element. -/
def XNode.tag : XNode → QName
  | .elem t _ _ _ => t

/-- The attribute list of an element. -/
def XNode.attrs : XNode → List (String × String)
  | .elem _ a _ _ => a

/-- The text of an element. -/
def XNode.text : XNode → Option String
  | .elem _ _ s _ => s

/-- The children of an element. -/
def XNode.children : XNode → List XNode
  | .elem _ _ _ cs => cs

/-- Attribute lookup, as `element.get(key)`. -/
def XNode.getAttr (n : XNode) (key : String) : Option String :=
  (n.attrs.find? (fun p => p.1 == key)).map Prod.snd

mutual

/-- All strict descendants of an element in document (pre-)order. -/
def descendantsOf : XNode → List XNode
  | XNode.elem _ _ _ cs => descendantsList cs

def descendantsList : List XNode → List XNode
  | [] => []
  | c :: cs => c :: (descendantsOf c ++ descendantsList cs)

end

/-- Embedding of `element.findall(".//{ns}name")`: all descendants with
the given tag, in document order. -/
def findall (t : QName) (n : XNode) : List XNode :=
  (descendantsOf n).filter (fun c => c.tag == t)

/-- An empty placeholder element. -/
def emptyNode : XNode := .elem ⟨"", ""⟩ [] none []

/-- Embedding of `element.find(".//{ns}name")`: the first matching
descendant, if any. -/
def findFirst (t : QName) (n : XNode) : Option XNode :=
  (findall t n).head?

mutual

/-- Rewrite the k-th descendant (pre-order, counting from 0 in the
`some k` state) whose tag is `t` by `f`; the `none` state means the
rewrite already happened. -/
def updateAtMatch (t : QName) (f : XNode → XNode) :
    XNode → Option Nat → XNode × Option Nat
  | XNode.elem tg a s cs, st =>
    match st with
    | none => (XNode.elem tg a s cs, none)
    | some k =>
      let r := updateAtMatchList t f cs (some k)
      (XNode.elem tg a s r.1, r.2)

def updateAtMatchList (t : QName) (f : XNode → XNode) :
    List XNode → Option Nat → List XNode × Option Nat
  | [], st => ([], st)
  | x :: xs, st =>
    match st with
    | none => (x :: xs, none)
    | some k =>
      if x.tag = t then
        if k = 0 then (f x :: xs, none)
        else
          let r1 := updateAtMatch t f x (some (k - 1))
          let r2 := updateAtMatchList t f xs r1.2
          (r1.1 :: r2.1, r2.2)
      else
        let r1 := updateAtMatch t f x (some k)
        let r2 := updateAtMatchList t f xs r1.2
        (r1.1 :: r2.1, r2.2)

end

/-- Append a new child at the end of the k-th matching descendant, as
`etree.SubElement(ext_contents[k], ...)` does on the found container. -/
def appendAtMatch (t : QName) (c : XNode) (doc : XNode) (k : Nat) : XNode :=
  (updateAtMatch t (fun x => XNode.elem x.tag x.attrs x.text (x.children ++ [c]))
    doc (some k)).1

/-! ## Python exceptions and external primitives -/

/-- The Python exception values the embedded code can raise.  The builder
exception taxonomy lives in src/facho/fe/builders/exceptions.py;
`XmlBuildError` is a distinct class there, unrelated to builtin
`ValueError`. -/
inductive PyExn where
  | valueError (msg : String)
  | xmlBuildError (msg : String)
  | attributeError
  | xmlSyntaxError
  | requestException (msg : String)
  | unboundLocalError
deriving DecidableEq

/-- Opaque X.509 certificate datum; `serial` mirrors `cert.serial_number`. -/
structure Cert where
  id : Nat
  serial : Int
deriving DecidableEq

/-- Opaque RSA private key datum. -/
structure PrivKey where
  id : Nat
deriving DecidableEq

/-- The external cryptographic and canonicalization primitives used by the
signers (lxml `tostring(method="c14n")`, hashlib, `cryptography` RSA
signing, certificate helpers), passed as explicit function-valued inputs:
the embedded code is parametric in them exactly as the Python code is in
its libraries. -/
structure CryptoPrims where
  c14nIncl : XNode → List Nat
  c14nExcl : XNode → List String → List Nat
  sha256B64 : List Nat → String
  rsaSignB64 : PrivKey → List Nat → String
  certToBase64 : Cert → String
  certDigest : Cert → String
  issuerDN : Cert → String

/-! ## XAdES-EPES signer (src/facho/fe/signing/xades.py) -/

def nsDs : String := "http://www.w3.org/2000/09/xmldsig#"

def nsXades : String := "http://uri.etsi.org/01903/v1.3.2#"

def nsExtDefault : String :=
  "urn:oasis:names:specification:ubl:schema:xsd:CommonExtensionComponents-2"

def C14N_ALG : String := "http://www.w3.org/TR/2001/REC-xml-c14n-20010315"

def C14N_EXC_ALG : String := "http://www.w3.org/2001/10/xml-exc-c14n#"

def ENVELOPED_SIG : String := "http://www.w3.org/2000/09/xmldsig#enveloped-signature"

def RSA_SHA256 : String := "http://www.w3.org/2001/04/xmldsig-more#rsa-sha256"

def SHA256_ALG : String := "http://www.w3.org/2001/04/xmlenc#sha256"

def SIGNED_PROPS_TYPE : String := "http://uri.etsi.org/01903#SignedProperties"

def POLITICA_URL : String :=
  "https://facturaelectronica.dian.gov.co/politicadefirma/v2/politicadefirmav2.pdf"

def POLITICA_HASH : String := "dMoMvtcG5aIzgYo0tIsSQeVJBDnUnfSOfBpxXrmor0Y="

/-- Shorthand for a `ds:` element. -/
def dsE (name : String) (attrs : List (String × String)) (text : Option String)
    (children : List XNode) : XNode :=
  .elem ⟨nsDs, name⟩ attrs text children

/-- Shorthand for a `xades:` element. -/
def xadesE (name : String) (attrs : List (String × String)) (text : Option String)
    (children : List XNode) : XNode :=
  .elem ⟨nsXades, name⟩ attrs text children

/-- Nondeterministic inputs of `sign_invoice_xades`, made explicit: the
four `uuid.uuid4().hex[:12]` draws and the `datetime.now(...)`-derived
signing-time string.  The source generates all of them internally. -/
structure XadesEnv where
  uuidA : String
  uuidB : String
  uuidC : String
  uuidD : String
  nowStr : String
deriving DecidableEq

def sigId (env : XadesEnv) : String := "xmldsig-" ++ env.uuidA

def signedPropsId (env : XadesEnv) : String :=
  "xmldsig-" ++ env.uuidB ++ "-signedprops"

def keyinfoId (env : XadesEnv) : String := "xmldsig-" ++ env.uuidC ++ "-keyinfo"

def refId (env : XadesEnv) : String := "xmldsig-" ++ env.uuidD ++ "-ref0"

/-- The `xades:Cert` node built by the local helper `add_cert`. -/
def xadesCertNode (P : CryptoPrims) (c : Cert) : XNode :=
  xadesE "Cert" [] none
    [xadesE "CertDigest" [] none
      [dsE "DigestMethod" [("Algorithm", SHA256_ALG)] none [],
       dsE "DigestValue" [] (some (P.certDigest c)) []],
     xadesE "IssuerSerial" [] none
      [dsE "X509IssuerName" [] (some (P.issuerDN c)) [],
       dsE "X509SerialNumber" [] (some (toString c.serial)) []]]

/-- The `ds:KeyInfo` subtree (leaf certificate plus first chain
certificate when present). -/
def xadesKeyInfo (P : CryptoPrims) (env : XadesEnv) (cert : Cert)
    (chain : List Cert) : XNode :=
  dsE "KeyInfo" [("Id", keyinfoId env)] none
    [dsE "X509Data" [] none
      ([dsE "X509Certificate" [] (some (P.certToBase64 cert)) []] ++
       (match chain with
        | [] => []
        | c0 :: _ => [dsE "X509Certificate" [] (some (P.certToBase64 c0)) []]))]

/-- The `xades:SignedProperties` subtree: signing time, signing
certificate(s), the fixed DIAN v2 signature policy, claimed role. -/
def xadesSignedProps (P : CryptoPrims) (env : XadesEnv) (cert : Cert)
    (chain : List Cert) : XNode :=
  xadesE "SignedProperties" [("Id", signedPropsId env)] none
    [xadesE "SignedSignatureProperties" [] none
      [xadesE "SigningTime" [] (some env.nowStr) [],
       xadesE "SigningCertificate" [] none
         ([xadesCertNode P cert] ++
          (match chain with
           | [] => []
           | c0 :: _ => [xadesCertNode P c0])),
       xadesE "SignaturePolicyIdentifier" [] none
         [xadesE "SignaturePolicyId" [] none
           [xadesE "SigPolicyId" [] none
             [xadesE "Identifier" [] (some POLITICA_URL) []],
            xadesE "SigPolicyHash" [] none
              [dsE "DigestMethod" [("Algorithm", SHA256_ALG)] none [],
               dsE "DigestValue" [] (some POLITICA_HASH) []]]],
       xadesE "SignerRole" [] none
         [xadesE "ClaimedRoles" [] none
           [xadesE "ClaimedRole" [] (some "supplier") []]]]]

/-- The `ds:SignedInfo` subtree with its three references (document,
KeyInfo, SignedProperties) holding the given digests. -/
def xadesSignedInfo (env : XadesEnv) (docDigest keyinfoDigest spDigest : String) :
    XNode :=
  dsE "SignedInfo" [] none
    [dsE "CanonicalizationMethod" [("Algorithm", C14N_ALG)] none [],
     dsE "SignatureMethod" [("Algorithm", RSA_SHA256)] none [],
     dsE "Reference" [("Id", refId env), ("URI", "")] none
       [dsE "Transforms" [] none
         [dsE "Transform" [("Algorithm", ENVELOPED_SIG)] none []],
        dsE "DigestMethod" [("Algorithm", SHA256_ALG)] none [],
        dsE "DigestValue" [] (some docDigest) []],
     dsE "Reference" [("URI", "#" ++ keyinfoId env)] none
       [dsE "DigestMethod" [("Algorithm", SHA256_ALG)] none [],
        dsE "DigestValue" [] (some keyinfoDigest) []],
     dsE "Reference" [("Type", SIGNED_PROPS_TYPE), ("URI", "#" ++ signedPropsId env)]
       none
       [dsE "DigestMethod" [("Algorithm", SHA256_ALG)] none [],
        dsE "DigestValue" [] (some spDigest) []]]

/-- The complete `ds:Signature` element inserted by `sign_invoice_xades`,
with final digest and signature values.  The source builds the same
element with placeholder digests, canonicalizes the KeyInfo,
SignedProperties and (patched) SignedInfo subtrees in place, and patches
the values; none of those subtrees changes after its canonicalization, so
the final tree is this one.  Child insertion order is SignedInfo,
SignatureValue, KeyInfo, Object. -/
def xadesSignature (P : CryptoPrims) (env : XadesEnv) (private_key : PrivKey)
    (cert : Cert) (chain : List Cert) (docDigest : String) : XNode :=
  let ki := xadesKeyInfo P env cert chain
  let sp := xadesSignedProps P env cert chain
  let si := xadesSignedInfo env docDigest
    (P.sha256B64 (P.c14nIncl ki)) (P.sha256B64 (P.c14nIncl sp))
  dsE "Signature" [("Id", sigId env)] none
    [si,
     dsE "SignatureValue" [] (some (P.rsaSignB64 private_key (P.c14nIncl si))) [],
     ki,
     dsE "Object" [] none
       [xadesE "QualifyingProperties" [("Target", "#" ++ sigId env)] none [sp]]]

/-- Embedding of `sign_invoice_xades(invoice, private_key, cert, chain,
ext_ns)`.  Step 1 digests the unsigned document (inclusive C14N); the
guard requires at least two `ExtensionContent` descendants and raises
builtin `ValueError` otherwise — before any mutation, so the error result
carries the unchanged tree; on success the signature element is appended
into the second container (`ext_contents[1]`). -/
def sign_invoice_xades (P : CryptoPrims) (env : XadesEnv) (invoice : XNode)
    (private_key : PrivKey) (cert : Cert) (chain : List Cert)
    (ext_ns : String := nsExtDefault) : Except (PyExn × XNode) XNode :=
  let doc_digest := P.sha256B64 (P.c14nIncl invoice)
  let ext_contents := findall ⟨ext_ns, "ExtensionContent"⟩ invoice
  if ext_contents.length < 2 then
    .error
      (.valueError "El documento debe tener al menos 2 UBLExtension/ExtensionContent",
       invoice)
  else
    .ok (appendAtMatch ⟨ext_ns, "ExtensionContent"⟩
      (xadesSignature P env private_key cert chain doc_digest) invoice 1)

/-! ## WS-Security SOAP signer
Embedding of `build_wssec_soap` (src/facho/fe/builders/soap_client.py);
`DianSimpleClient._build_wssec_soap` (src/facho/fe/client/dian_simple.py)
is the same construction inlined, with the ids drawn from one
`uuid.uuid4().hex[:8]` suffix and the endpoint taken from the client.
The source splices strings and re-parses them; the embedding builds the
corresponding element tree directly, and returns the tree (the final
`etree.tostring` serialization stays outside the model). -/

def nsSoap : String := "http://www.w3.org/2003/05/soap-envelope"

def nsWcf : String := "http://wcf.dian.colombia"

def nsWsa : String := "http://www.w3.org/2005/08/addressing"

def nsWsse : String :=
  "http://docs.oasis-open.org/wss/2004/01/oasis-200401-wss-wssecurity-secext-1.0.xsd"

def nsWsu : String :=
  "http://docs.oasis-open.org/wss/2004/01/oasis-200401-wss-wssecurity-utility-1.0.xsd"

def bstEncodingType : String :=
  "http://docs.oasis-open.org/wss/2004/01/oasis-200401-wss-soap-message-security-1.0#Base64Binary"

def bstValueType : String :=
  "http://docs.oasis-open.org/wss/2004/01/oasis-200401-wss-x509-token-profile-1.0#X509v3"

/-- The id set produced by `generate_wssec_ids` from one uuid suffix. -/
structure WssecIds where
  timestamp : String
  token : String
  signature : String
  keyinfo : String
  strId : String
  toId : String
deriving DecidableEq

/-- Embedding of `generate_wssec_ids(suffix)`. -/
def generate_wssec_ids (suffix : String) : WssecIds :=
  ⟨"TS-" ++ suffix, "X509-" ++ suffix, "SIG-" ++ suffix, "KI-" ++ suffix,
   "STR-" ++ suffix, "id-TO-" ++ suffix⟩

/-- Embedding of `build_soap_envelope_template(...)`: the envelope tree
the f-string template parses to — Security header with Timestamp,
BinarySecurityToken and a Signature holding only KeyInfo, then the
`wsa:Action` and `wsa:To` header entries and the Body. -/
def build_soap_envelope_template (body_content : XNode)
    (action endpoint cert_b64 : String) (ids : WssecIds)
    (created expires : String) : XNode :=
  .elem ⟨nsSoap, "Envelope"⟩ [] none
    [.elem ⟨nsSoap, "Header"⟩ [] none
      [.elem ⟨nsWsse, "Security"⟩ [] none
        [.elem ⟨nsWsu, "Timestamp"⟩ [("wsu:Id", ids.timestamp)] none
          [.elem ⟨nsWsu, "Created"⟩ [] (some created) [],
           .elem ⟨nsWsu, "Expires"⟩ [] (some expires) []],
         .elem ⟨nsWsse, "BinarySecurityToken"⟩
           [("EncodingType", bstEncodingType), ("ValueType", bstValueType),
            ("wsu:Id", ids.token)]
           (some cert_b64) [],
         .elem ⟨nsDs, "Signature"⟩ [("Id", ids.signature)] none
           [.elem ⟨nsDs, "KeyInfo"⟩ [("Id", ids.keyinfo)] none
             [.elem ⟨nsWsse, "SecurityTokenReference"⟩ [("wsu:Id", ids.strId)] none
               [.elem ⟨nsWsse, "Reference"⟩
                 [("URI", "#" ++ ids.token), ("ValueType", bstValueType)] none []]]]],
       .elem ⟨nsWsa, "Action"⟩ [] (some action) [],
       .elem ⟨nsWsa, "To"⟩ [("wsu:Id", ids.toId)] (some endpoint) []],
     .elem ⟨nsSoap, "Body"⟩ [] none [body_content]]

/-- Embedding of `build_signed_info_xml(ids, ts_digest, to_digest)`: the
SignedInfo with exclusive canonicalization (PrefixList `soap wsa`),
RSA-SHA256, and exactly two references — the Timestamp (transform
PrefixList `wsu soap`) and the To element (PrefixList `wsu soap wsa`). -/
def build_signed_info_xml (ids : WssecIds) (ts_digest to_digest : String) : XNode :=
  dsE "SignedInfo" [] none
    [dsE "CanonicalizationMethod" [("Algorithm", C14N_EXC_ALG)] none
      [.elem ⟨C14N_EXC_ALG, "InclusiveNamespaces"⟩ [("PrefixList", "soap wsa")]
        none []],
     dsE "SignatureMethod" [("Algorithm", RSA_SHA256)] none [],
     dsE "Reference" [("URI", "#" ++ ids.timestamp)] none
       [dsE "Transforms" [] none
         [dsE "Transform" [("Algorithm", C14N_EXC_ALG)] none
           [.elem ⟨C14N_EXC_ALG, "InclusiveNamespaces"⟩ [("PrefixList", "wsu soap")]
             none []]],
        dsE "DigestMethod" [("Algorithm", SHA256_ALG)] none [],
        dsE "DigestValue" [] (some ts_digest) []],
     dsE "Reference" [("URI", "#" ++ ids.toId)] none
       [dsE "Transforms" [] none
         [dsE "Transform" [("Algorithm", C14N_EXC_ALG)] none
           [.elem ⟨C14N_EXC_ALG, "InclusiveNamespaces"⟩
             [("PrefixList", "wsu soap wsa")] none []]],
        dsE "DigestMethod" [("Algorithm", SHA256_ALG)] none [],
        dsE "DigestValue" [] (some to_digest) []]]

/-- Embedding of `build_wssec_soap(body_content, action, endpoint,
private_key, cert_b64, ...)`.  The uuid suffix and the created/expires
clock strings are the source's internally generated values, made explicit
inputs.  Digests use exclusive C14N with the per-reference prefix lists;
the SignedInfo is canonicalized exclusively with prefixes `soap wsa` and
RSA-SHA256-signed; the header Signature is rebuilt with children
SignedInfo, SignatureValue, KeyInfo. -/
def build_wssec_soap (P : CryptoPrims) (ids : WssecIds) (created expires : String)
    (body_content : XNode) (action endpoint : String) (private_key : PrivKey)
    (cert_b64 : String) : XNode :=
  let doc := build_soap_envelope_template body_content action endpoint cert_b64
    ids created expires
  let timestamp := (findFirst ⟨nsWsu, "Timestamp"⟩ doc).getD emptyNode
  let to_el := (findFirst ⟨nsWsa, "To"⟩ doc).getD emptyNode
  let ts_digest := P.sha256B64 (P.c14nExcl timestamp ["wsu", "soap"])
  let to_digest := P.sha256B64 (P.c14nExcl to_el ["wsu", "soap", "wsa"])
  let si_doc := build_signed_info_xml ids ts_digest to_digest
  let sig_value := P.rsaSignB64 private_key (P.c14nExcl si_doc ["soap", "wsa"])
  let sig_val_el := dsE "SignatureValue" [] (some sig_value) []
  (updateAtMatch ⟨nsDs, "Signature"⟩
    (fun sig =>
      XNode.elem sig.tag sig.attrs sig.text
        [si_doc, sig_val_el, (findFirst ⟨nsDs, "KeyInfo"⟩ sig).getD emptyNode])
    doc (some 0)).1

/-! ## Authority response parsing (src/facho/fe/client/dian_simple.py)
The parsers receive the raw response string and the outcome of
`etree.fromstring` on it (the parse itself is an lxml primitive, so its
outcome is an explicit input: `.error` for non-XML input).  Both parsers
wrap their whole extraction in `try/except Exception: pass`, so every
failure path returns the response object as populated so far. -/

/-- The `SendTestSetResponse` dataclass (all `DianResponse` fields
default to `None`). -/
structure SendTestSetResponse where
  is_valid : Option Bool := none
  status_code : Option String := none
  status_description : Option String := none
  status_message : Option String := none
  error_messages : Option (List String) := none
  xml_response : Option String := none
  zip_key : Option String := none
deriving DecidableEq

/-- The `GetStatusZipResponse` dataclass. -/
structure GetStatusZipResponse where
  is_valid : Option Bool := none
  status_code : Option String := none
  status_description : Option String := none
  status_message : Option String := none
  error_messages : Option (List String) := none
  xml_response : Option String := none
deriving DecidableEq

def nsDataUpload : String :=
  "http://schemas.datacontract.org/2004/07/UploadDocumentResponse"

def nsDataDian : String :=
  "http://schemas.datacontract.org/2004/07/DianResponse"

/-- ASCII lowercasing of one character, as Python `str.lower` acts on the
ASCII range (authority verdicts are `"true"`/`"false"`). -/
def lowerChar (c : Char) : Char :=
  if 65 ≤ c.toNat ∧ c.toNat ≤ 90 then Char.ofNat (c.toNat + 32) else c

/-- Embedding of Python `s.lower()`. -/
def pyLower (s : String) : String := String.mk (s.toList.map lowerChar)

/-- Two-namespace lookup: `find` under the first namespace, falling back
to the second when absent. -/
def find2 (ns1 ns2 name : String) (doc : XNode) : Option XNode :=
  match findFirst ⟨ns1, name⟩ doc with
  | some el => some el
  | none => findFirst ⟨ns2, name⟩ doc

/-- Two-namespace `findall`: all matches under the first namespace, else
all matches under the second. -/
def findall2 (ns1 ns2 name : String) (doc : XNode) : List XNode :=
  match findall ⟨ns1, name⟩ doc with
  | [] => findall ⟨ns2, name⟩ doc
  | l => l

/-- The texts of a node list, dropping `None` and empty texts
(`[e.text for e in l if e.text]`). -/
def textsOf (l : List XNode) : List String :=
  l.filterMap (fun e => match e.text with
    | some t => if t = "" then none else some t
    | none => none)

/-- Embedding of `DianSimpleClient._parse_send_test_set_response`.
ZipKey is looked up under the UploadDocumentResponse data-contract
namespace, then under wcf.dian.colombia; the error `string` list is
looked up only under wcf.dian.colombia.  No statement in the `try` body
can raise beyond the parse itself. -/
def parse_send_test_set_response (xml_response : String)
    (parsed : Except PyExn XNode) : SendTestSetResponse :=
  let response : SendTestSetResponse := { xml_response := some xml_response }
  match parsed with
  | .error _ => response
  | .ok doc =>
    let zipEl := find2 nsDataUpload nsWcf "ZipKey" doc
    let response :=
      match zipEl with
      | some el =>
        match el.text with
        | some t => if t = "" then response else { response with zip_key := some t }
        | none => response
      | none => response
    let error_list := findall ⟨nsWcf, "string"⟩ doc
    match error_list with
    | [] => response
    | _ => { response with error_messages := some (textsOf error_list) }

/-- Embedding of `DianSimpleClient._parse_status_response` (used for
`GetStatusZip`, `GetStatus` and `SendBillSync`).  Every field is looked
up under the DianResponse data-contract namespace, then under
wcf.dian.colombia.  The one exception-prone statement inside the `try` is
`is_valid.text.lower()`: when the found IsValid element has no text it
raises `AttributeError`, which the bare `except` swallows, returning the
response as populated so far (nothing yet beyond `xml_response`). -/
def parse_status_response (xml_response : String)
    (parsed : Except PyExn XNode) : GetStatusZipResponse :=
  let r0 : GetStatusZipResponse := { xml_response := some xml_response }
  match parsed with
  | .error _ => r0
  | .ok doc =>
    let step1 : Except PyExn GetStatusZipResponse :=
      match find2 nsDataDian nsWcf "IsValid" doc with
      | none => .ok r0
      | some el =>
        match el.text with
        | none => .error .attributeError
        | some t => .ok { r0 with is_valid := some (pyLower t == "true") }
    match step1 with
    | .error _ => r0
    | .ok r1 =>
      let r2 :=
        match find2 nsDataDian nsWcf "StatusCode" doc with
        | none => r1
        | some el => { r1 with status_code := el.text }
      let r3 :=
        match find2 nsDataDian nsWcf "StatusDescription" doc with
        | none => r2
        | some el => { r2 with status_description := el.text }
      let r4 :=
        match findall2 nsDataDian nsWcf "StatusMessage" doc with
        | [] => r3
        | l => { r3 with status_message := some (String.intercalate "; " (textsOf l)) }
      match findall2 nsDataDian nsWcf "ErrorMessage" doc with
      | [] => r4
      | l => { r4 with error_messages := some (textsOf l) }

/-! ## Verification retry loop
Embedding of `DianSimpleClient.verify_status_with_retry`.  The network is
an oracle mapping the attempt index to the outcome of
`self.get_status_zip(zip_key)` — a parsed response or a raised
`requests.RequestException`.  The observable effects (sleeps and polls)
are returned as an event trace. -/

/-- Outcome of one `get_status_zip` call. -/
inductive PollOutcome where
  | resp (r : GetStatusZipResponse)
  | exn (e : PyExn)
deriving DecidableEq

/-- Observable events of the retry loop. -/
inductive RetryEvent where
  | sleep (seconds : Nat)
  | poll (attempt : Nat)
deriving DecidableEq

/-- The `return response` statement after the loop: `response` is the
Python local holding the last successfully parsed response (returning it
without a prior assignment raises `UnboundLocalError`). -/
def loopEnd (lastResp : Option GetStatusZipResponse) :
    List RetryEvent × Except PyExn GetStatusZipResponse :=
  ([], match lastResp with
    | some r => .ok r
    | none => .error .unboundLocalError)

/-- The `for attempt in range(max_retries)` loop body.  Sleeps happen
after a non-definitive response or swallowed exception only when further
attempts remain; an exception on the final attempt is re-raised. -/
def verifyLoop (oracle : Nat → PollOutcome) (wait_seconds max_retries : Nat)
    (attempt : Nat) (lastResp : Option GetStatusZipResponse) :
    List RetryEvent × Except PyExn GetStatusZipResponse :=
  if _h : attempt < max_retries then
    match oracle attempt with
    | .resp r =>
      if r.is_valid.isSome then ([.poll attempt], .ok r)
      else if attempt < max_retries - 1 then
        let rest := verifyLoop oracle wait_seconds max_retries (attempt + 1) (some r)
        (.poll attempt :: .sleep wait_seconds :: rest.1, rest.2)
      else
        let rest := verifyLoop oracle wait_seconds max_retries (attempt + 1) (some r)
        (.poll attempt :: rest.1, rest.2)
    | .exn e =>
      if attempt < max_retries - 1 then
        let rest := verifyLoop oracle wait_seconds max_retries (attempt + 1) lastResp
        (.poll attempt :: .sleep wait_seconds :: rest.1, rest.2)
      else ([.poll attempt], .error e)
  else loopEnd lastResp
termination_by max_retries - attempt

/-- Embedding of `verify_status_with_retry(zip_key, wait_seconds,
max_retries)`: an initial sleep when `wait_seconds > 0`, then the bounded
polling loop. -/
def verify_status_with_retry (oracle : Nat → PollOutcome)
    (wait_seconds : Nat := 10) (max_retries : Nat := 3) :
    List RetryEvent × Except PyExn GetStatusZipResponse :=
  let pre : List RetryEvent :=
    if 0 < wait_seconds then [.sleep wait_seconds] else []
  let r := verifyLoop oracle wait_seconds max_retries 0 none
  (pre ++ r.1, r.2)

/-! ## Observation helpers and concrete test inputs -/

instance {α β : Type} [DecidableEq α] [DecidableEq β] : DecidableEq (Except α β) :=
  fun a b =>
    match a, b with
    | .ok x, .ok y =>
      if h : x = y then isTrue (by rw [h])
      else isFalse (fun hh => h (by cases hh; rfl))
    | .error e, .error e2 =>
      if h : e = e2 then isTrue (by rw [h])
      else isFalse (fun hh => h (by cases hh; rfl))
    | .ok _, .error _ => isFalse (fun h => Except.noConfusion h)
    | .error _, .ok _ => isFalse (fun h => Except.noConfusion h)

/-- Does a sign result carry an `XmlBuildError`? -/
def isXmlBuildErrorResult : Except (PyExn × XNode) XNode → Bool
  | .error (.xmlBuildError _, _) => true
  | _ => false

/-- The `Id` attributes of all `ds:Signature` elements in a sign result. -/
def signatureIdsIn (r : Except (PyExn × XNode) XNode) : List (Option String) :=
  match r with
  | .ok t => (findall ⟨nsDs, "Signature"⟩ t).map (fun s => s.getAttr "Id")
  | .error _ => []

/-- The texts of all `xades:SigningTime` elements in a sign result. -/
def signingTimesIn (r : Except (PyExn × XNode) XNode) : List (Option String) :=
  match r with
  | .ok t => (findall ⟨nsXades, "SigningTime"⟩ t).map XNode.text
  | .error _ => []

/-- The child tag lists of all `ds:Signature` elements in a sign result. -/
def signatureChildTagsIn (r : Except (PyExn × XNode) XNode) : List (List QName) :=
  match r with
  | .ok t => (findall ⟨nsDs, "Signature"⟩ t).map
      (fun s => s.children.map XNode.tag)
  | .error _ => []

/-- Count of poll events in a retry trace. -/
def pollCount (evs : List RetryEvent) : Nat :=
  evs.countP (fun e => match e with
    | .poll _ => true
    | .sleep _ => false)

/-- A one-field authority response document: a root wrapping a single
element with the given namespace, local name and text. -/
def wrapResp (ns name t : String) : XNode :=
  .elem ⟨"http://www.w3.org/2003/05/soap-envelope", "Envelope"⟩ [] none
    [.elem ⟨ns, name⟩ [] (some t) []]

/-- Concrete stand-in primitives: constant digests and signatures.  Used
only as one explicit input among others when instantiating theorems. -/
def trivialPrims : CryptoPrims :=
  ⟨fun _ => [], fun _ _ => [], fun _ => "DG", fun _ _ => "SIG",
   fun _ => "CERT", fun _ => "CDIG", fun _ => "ISSUER"⟩

def sampleKey : PrivKey := ⟨0⟩

def sampleCert : Cert := ⟨0, 7⟩

/-- A concrete environment draw. -/
def sampleEnv : XadesEnv :=
  ⟨"aaaaaaaaaaaa", "bbbbbbbbbbbb", "cccccccccccc", "dddddddddddd",
   "2026-01-18T10:30:00-05:00"⟩

/-- A second draw: same clock reading, different uuid values. -/
def sampleEnvB : XadesEnv :=
  ⟨"eeeeeeeeeeee", "ffffffffffff", "gggggggggggg", "hhhhhhhhhhhh",
   "2026-01-18T10:30:00-05:00"⟩

/-- A document with no `ExtensionContent` container. -/
def docNoExt : XNode :=
  .elem ⟨"urn:oasis:names:specification:ubl:schema:xsd:Invoice-2", "Invoice"⟩
    [] none
    [.elem ⟨"urn:oasis:names:specification:ubl:schema:xsd:CommonBasicComponents-2",
       "ID"⟩ [] (some "SETP990000001") []]

/-- A well-formed document with exactly two `ExtensionContent`
containers, the second empty. -/
def docTwoExt : XNode :=
  .elem ⟨"urn:oasis:names:specification:ubl:schema:xsd:Invoice-2", "Invoice"⟩
    [] none
    [.elem ⟨nsExtDefault, "UBLExtensions"⟩ [] none
      [.elem ⟨nsExtDefault, "UBLExtension"⟩ [] none
        [.elem ⟨nsExtDefault, "ExtensionContent"⟩ [] none
          [.elem ⟨"dian:gov:co:facturaelectronica:Structures-2-1", "DianExtensions"⟩
            [] none []]],
       .elem ⟨nsExtDefault, "UBLExtension"⟩ [] none
        [.elem ⟨nsExtDefault, "ExtensionContent"⟩ [] none []]],
     .elem ⟨"urn:oasis:names:specification:ubl:schema:xsd:CommonBasicComponents-2",
       "ID"⟩ [] (some "SETP990000001") []]

/-- A concrete SOAP body payload. -/
def sampleBody : XNode :=
  .elem ⟨nsWcf, "SendTestSetAsync"⟩ [] none
    [.elem ⟨nsWcf, "fileName"⟩ [] (some "z.zip") []]

/-- A concrete WS-Security id set. -/
def sampleIds : WssecIds := generate_wssec_ids "12ab34cd"

/-- A pending authority response (no `IsValid` verdict). -/
def pendingResp : GetStatusZipResponse :=
  { status_description := some "Procesando", xml_response := some "<resp/>" }

/-- The first `ds:SignedInfo` element of a document. -/
def siOf (out : XNode) : XNode :=
  (findFirst ⟨nsDs, "SignedInfo"⟩ out).getD emptyNode

/-- The first `wsu:Timestamp` element of a document. -/
def tsOf (out : XNode) : XNode :=
  (findFirst ⟨nsWsu, "Timestamp"⟩ out).getD emptyNode

/-- The first `wsa:To` element of a document. -/
def toElOf (out : XNode) : XNode :=
  (findFirst ⟨nsWsa, "To"⟩ out).getD emptyNode

/-- The reference URIs of a SignedInfo, in order. -/
def refURIs (si : XNode) : List (Option String) :=
  (findall ⟨nsDs, "Reference"⟩ si).map (fun r => r.getAttr "URI")

/-- The digest values of a SignedInfo, in order. -/
def digestTexts (si : XNode) : List (Option String) :=
  (findall ⟨nsDs, "DigestValue"⟩ si).map XNode.text

/-- The `InclusiveNamespaces` prefix lists of a SignedInfo, in order
(the SignedInfo canonicalization one first, then one per transform). -/
def prefixListsOf (si : XNode) : List (Option String) :=
  (findall ⟨C14N_EXC_ALG, "InclusiveNamespaces"⟩ si).map
    (fun n => n.getAttr "PrefixList")

/-- The text of the first `ds:SignatureValue` element of a document. -/
def sigValueTextOf (out : XNode) : Option String :=
  ((findFirst ⟨nsDs, "SignatureValue"⟩ out).getD emptyNode).text

/-! ## Helper lemmas -/

theorem ratFloor_eq (q : ℚ) : q.floor = ⌊q⌋ := by
  rw [Rat.floor_def', Rat.floor_def]

theorem truncQ_intCast (m : ℤ) : truncQ (m : ℚ) = m := by
  unfold truncQ
  split
  · rw [ratFloor_eq]; exact Int.floor_intCast m
  · rw [ratFloor_eq, ← Int.cast_neg, Int.floor_intCast]; exact neg_neg m

theorem truncQ_nonneg {q : ℚ} (h : 0 ≤ q) : truncQ q = ⌊q⌋ := by
  unfold truncQ
  rw [if_pos h, ratFloor_eq]

theorem truncQ_abs_le (p : ℚ) : |(truncQ p : ℚ)| ≤ |p| := by
  rcases le_or_lt 0 p with h | h
  · rw [truncQ_nonneg h]
    have h0 : (0 : ℚ) ≤ (⌊p⌋ : ℚ) := by exact_mod_cast Int.floor_nonneg.mpr h
    rw [abs_of_nonneg h0, abs_of_nonneg h]
    exact Int.floor_le p
  · have htr : truncQ p = -⌊-p⌋ := by
      unfold truncQ
      rw [if_neg (by linarith), ratFloor_eq]
    rw [htr]
    have hnp : (0 : ℚ) ≤ -p := by linarith
    have h0 : (0 : ℚ) ≤ (⌊-p⌋ : ℚ) := by exact_mod_cast Int.floor_nonneg.mpr hnp
    rw [Int.cast_neg, abs_neg, abs_of_nonneg h0, abs_of_neg h]
    exact Int.floor_le (-p)

theorem roundTiesEven_eq_down (s : ℚ) (f : ℤ) (h1 : (f : ℚ) ≤ s)
    (h2 : s < (f : ℚ) + 1 / 2) : roundTiesEven s = f := by
  have hf : ⌊s⌋ = f := by
    rw [Int.floor_eq_iff]
    exact ⟨h1, by linarith⟩
  unfold roundTiesEven
  rw [hf, if_pos (show s - (f : ℚ) < 1 / 2 by linarith)]

theorem roundTiesEven_eq_up (s : ℚ) (f : ℤ) (h1 : (f : ℚ) + 1 / 2 < s)
    (h2 : s < (f : ℚ) + 1) : roundTiesEven s = f + 1 := by
  have hf : ⌊s⌋ = f := by
    rw [Int.floor_eq_iff]
    exact ⟨by linarith, h2⟩
  unfold roundTiesEven
  rw [hf, if_neg (show ¬(s - (f : ℚ) < 1 / 2) by push_neg; linarith),
    if_pos (show (1 : ℚ) / 2 < s - f by linarith)]

theorem floorLog2Q_eq_of (q : ℚ) (e : ℕ) (h0 : 1 ≤ q)
    (h1 : (2 : ℚ) ^ e ≤ q) (h2 : q < 2 ^ (e + 1)) : floorLog2Q q = (e : ℤ) := by
  unfold floorLog2Q
  rw [if_pos h0]
  have hge : ((2 ^ e : ℕ) : ℤ) ≤ ⌊q⌋ := by
    rw [Int.le_floor]
    push_cast
    exact h1
  have hlt : ⌊q⌋ < ((2 ^ (e + 1) : ℕ) : ℤ) := by
    rw [Int.floor_lt]
    push_cast
    exact h2
  have hnn : (0 : ℤ) ≤ ⌊q⌋ :=
    le_trans (by exact_mod_cast Nat.zero_le (2 ^ e)) hge
  have h3 : (⌊q⌋.toNat : ℤ) = ⌊q⌋ := Int.toNat_of_nonneg hnn
  have hlog : Nat.log 2 ⌊q⌋.toNat = e := by
    apply Nat.log_eq_of_pow_le_of_lt_pow
    · omega
    · omega
  rw [hlog]

theorem two_zpow_sub_52 (e : ℕ) : (2 : ℚ) ^ ((e : ℤ) - 52) = 2 ^ e / 2 ^ 52 := by
  rw [zpow_sub₀ (by norm_num : (2 : ℚ) ≠ 0), zpow_natCast,
    show ((52 : ℤ)) = ((52 : ℕ) : ℤ) from rfl, zpow_natCast]

theorem roundDouble_eq (q : ℚ) (e : ℕ) (m : ℤ) (h0 : 1 ≤ q)
    (h1 : (2 : ℚ) ^ e ≤ q) (h2 : q < 2 ^ (e + 1))
    (hm : roundTiesEven (q * 2 ^ 52 / 2 ^ e) = m) :
    roundDouble q = (m : ℚ) * 2 ^ e / 2 ^ 52 := by
  have hq0 : 0 < q := lt_of_lt_of_le one_pos h0
  unfold roundDouble
  rw [if_neg (ne_of_gt hq0), if_pos hq0, floorLog2Q_eq_of q e h0 h1 h2,
    two_zpow_sub_52]
  unfold roundToMultiple
  rw [show q / ((2 : ℚ) ^ e / 2 ^ 52) = q * 2 ^ 52 / 2 ^ e from by
      rw [div_div_eq_mul_div],
    hm]
  ring

theorem rd_118 : roundDouble (118 / 100 : ℚ) =
    5314247560297185 / 4503599627370496 := by
  have hs : ((118 / 100 : ℚ) * 2 ^ 52 / 2 ^ 0) = 132856189007429632 / 25 := by
    norm_num
  have hr : roundTiesEven ((118 / 100 : ℚ) * 2 ^ 52 / 2 ^ 0) =
      5314247560297185 := by
    rw [hs]
    exact roundTiesEven_eq_down (132856189007429632 / 25) 5314247560297185
      (by norm_num) (by norm_num)
  have h := roundDouble_eq (118 / 100) 0 5314247560297185 (by norm_num)
    (by norm_num) (by norm_num) hr
  rw [h]
  norm_num

theorem rd_118prod :
    roundDouble (132856189007429625 / 1125899906842624 : ℚ) = 118 := by
  have hs : ((132856189007429625 / 1125899906842624 : ℚ) * 2 ^ 52 / 2 ^ 6) =
      132856189007429625 / 16 := by
    norm_num
  have hr : roundTiesEven
      ((132856189007429625 / 1125899906842624 : ℚ) * 2 ^ 52 / 2 ^ 6) =
      8303511812964352 := by
    rw [hs]
    have h2 := roundTiesEven_eq_up (132856189007429625 / 16) 8303511812964351
      (by norm_num) (by norm_num)
    omega
  have h := roundDouble_eq (132856189007429625 / 1125899906842624) 6
    8303511812964352 (by norm_num) (by norm_num) (by norm_num) hr
  rw [h]
  norm_num

theorem rte_118prod :
    roundTiesEven (132856189007429625 / 1125899906842624 : ℚ) = 118 := by
  have h2 := roundTiesEven_eq_up (132856189007429625 / 1125899906842624) 117
    (by norm_num) (by norm_num)
  omega

theorem truncQ_cast_118 : (truncQ (118 : ℚ) : ℚ) = 118 := by
  have h := truncQ_intCast 118
  rw [show ((118 : ℤ) : ℚ) = (118 : ℚ) from by norm_num] at h
  rw [h]
  norm_num

theorem truncarF_of_double_118 :
    truncarF (5314247560297185 / 4503599627370496 : ℚ) 2 =
      5314247560297185 / 4503599627370496 := by
  unfold truncarF
  rw [show ((5314247560297185 / 4503599627370496 : ℚ) * 10 ^ 2) =
      132856189007429625 / 1125899906842624 from by norm_num,
    rd_118prod, truncQ_cast_118,
    show ((118 : ℚ) / 10 ^ 2) = 118 / 100 from by norm_num,
    rd_118]

theorem format_amountF_of_double_118 :
    format_amountF (5314247560297185 / 4503599627370496 : ℚ) = "1.18" := by
  unfold format_amountF formatFixedF
  rw [truncarF_of_double_118,
    show ((5314247560297185 / 4503599627370496 : ℚ) * 10 ^ 2) =
      132856189007429625 / 1125899906842624 from by norm_num,
    rte_118prod]
  decide

theorem rd_99995 : roundDouble (99995 / 1000 : ℚ) =
    879565321755689 / 8796093022208 := by
  have hs : ((99995 / 1000 : ℚ) * 2 ^ 52 / 2 ^ 6) =
      175913064351137792 / 25 := by
    norm_num
  have hr : roundTiesEven ((99995 / 1000 : ℚ) * 2 ^ 52 / 2 ^ 6) =
      7036522574045512 := by
    rw [hs]
    have h2 := roundTiesEven_eq_up (175913064351137792 / 25) 7036522574045511
      (by norm_num) (by norm_num)
    omega
  have h := roundDouble_eq (99995 / 1000) 6 7036522574045512 (by norm_num)
    (by norm_num) (by norm_num) hr
  rw [h]
  norm_num

theorem rd_99995prod :
    roundDouble (21989133043892225 / 2199023255552 : ℚ) = 19999 / 2 := by
  have hs : ((21989133043892225 / 2199023255552 : ℚ) * 2 ^ 52 / 2 ^ 13) =
      21989133043892225 / 4 := by
    norm_num
  have hr : roundTiesEven
      ((21989133043892225 / 2199023255552 : ℚ) * 2 ^ 52 / 2 ^ 13) =
      5497283260973056 := by
    rw [hs]
    exact roundTiesEven_eq_down (21989133043892225 / 4) 5497283260973056
      (by norm_num) (by norm_num)
  have h := roundDouble_eq (21989133043892225 / 2199023255552) 13
    5497283260973056 (by norm_num) (by norm_num) (by norm_num) hr
  rw [h]
  norm_num

theorem truncQ_199992 : (truncQ (19999 / 2 : ℚ) : ℚ) = 9999 := by
  rw [truncQ_nonneg (by norm_num)]
  have hf : ⌊(19999 / 2 : ℚ)⌋ = 9999 := by
    rw [Int.floor_eq_iff] <;> norm_num
  rw [hf]
  norm_num

theorem rd_9999div : roundDouble (9999 / 100 : ℚ) =
    7036170730324623 / 70368744177664 := by
  have hs : ((9999 / 100 : ℚ) * 2 ^ 52 / 2 ^ 6) =
      175904268258115584 / 25 := by
    norm_num
  have hr : roundTiesEven ((9999 / 100 : ℚ) * 2 ^ 52 / 2 ^ 6) =
      7036170730324623 := by
    rw [hs]
    exact roundTiesEven_eq_down (175904268258115584 / 25) 7036170730324623
      (by norm_num) (by norm_num)
  have h := roundDouble_eq (9999 / 100) 6 7036170730324623 (by norm_num)
    (by norm_num) (by norm_num) hr
  rw [h]
  norm_num

theorem rte_9999fmt :
    roundTiesEven ((7036170730324623 / 70368744177664 : ℚ) * 10 ^ 2) =
      9999 := by
  rw [show ((7036170730324623 / 70368744177664 : ℚ) * 10 ^ 2) =
      175904268258115575 / 17592186044416 from by norm_num]
  have h2 := roundTiesEven_eq_up (175904268258115575 / 17592186044416) 9998
    (by norm_num) (by norm_num)
  omega

theorem truncarF_99995 :
    truncarF (879565321755689 / 8796093022208 : ℚ) 2 =
      7036170730324623 / 70368744177664 := by
  unfold truncarF
  rw [show ((879565321755689 / 8796093022208 : ℚ) * 10 ^ 2) =
      21989133043892225 / 2199023255552 from by norm_num,
    rd_99995prod, truncQ_199992,
    show ((9999 : ℚ) / 10 ^ 2) = 9999 / 100 from by norm_num,
    rd_9999div]

theorem format_amountF_99995 :
    format_amountF (879565321755689 / 8796093022208 : ℚ) = "99.99" := by
  unfold format_amountF formatFixedF
  rw [truncarF_99995, rte_9999fmt]
  decide

theorem rd_1005 : roundDouble (1005 / 1000 : ℚ) =
    1131529406376837 / 1125899906842624 := by
  have hs : ((1005 / 1000 : ℚ) * 2 ^ 52 / 2 ^ 0) =
      113152940637683712 / 25 := by
    norm_num
  have hr : roundTiesEven ((1005 / 1000 : ℚ) * 2 ^ 52 / 2 ^ 0) =
      4526117625507348 := by
    rw [hs]
    exact roundTiesEven_eq_down (113152940637683712 / 25) 4526117625507348
      (by norm_num) (by norm_num)
  have h := roundDouble_eq (1005 / 1000) 0 4526117625507348 (by norm_num)
    (by norm_num) (by norm_num) hr
  rw [h]
  norm_num

theorem rd_1005prod :
    roundDouble (28288235159420925 / 281474976710656 : ℚ) =
      7072058789855231 / 70368744177664 := by
  have hs : ((28288235159420925 / 281474976710656 : ℚ) * 2 ^ 52 / 2 ^ 6) =
      28288235159420925 / 4 := by
    norm_num
  have hr : roundTiesEven
      ((28288235159420925 / 281474976710656 : ℚ) * 2 ^ 52 / 2 ^ 6) =
      7072058789855231 := by
    rw [hs]
    exact roundTiesEven_eq_down (28288235159420925 / 4) 7072058789855231
      (by norm_num) (by norm_num)
  have h := roundDouble_eq (28288235159420925 / 281474976710656) 6
    7072058789855231 (by norm_num) (by norm_num) (by norm_num) hr
  rw [h]
  norm_num

theorem truncQ_100half : (truncQ (7072058789855231 / 70368744177664 : ℚ) : ℚ) =
    100 := by
  rw [truncQ_nonneg (by norm_num)]
  have hf : ⌊(7072058789855231 / 70368744177664 : ℚ)⌋ = 100 := by
    rw [Int.floor_eq_iff] <;> norm_num
  rw [hf]
  norm_num

theorem rd_one : roundDouble (1 : ℚ) = 1 := by
  have hs : ((1 : ℚ) * 2 ^ 52 / 2 ^ 0) = 4503599627370496 := by
    norm_num
  have hr : roundTiesEven ((1 : ℚ) * 2 ^ 52 / 2 ^ 0) = 4503599627370496 := by
    rw [hs]
    exact roundTiesEven_eq_down 4503599627370496 4503599627370496
      (by norm_num) (by norm_num)
  have h := roundDouble_eq 1 0 4503599627370496 (by norm_num)
    (by norm_num) (by norm_num) hr
  rw [h]
  norm_num

theorem rte_one_fmt : roundTiesEven ((1 : ℚ) * 10 ^ 2) = 100 := by
  rw [show ((1 : ℚ) * 10 ^ 2) = 100 from by norm_num]
  exact roundTiesEven_eq_down 100 100 (by norm_num) (by norm_num)

theorem truncarF_1005 :
    truncarF (1131529406376837 / 1125899906842624 : ℚ) 2 = 1 := by
  unfold truncarF
  rw [show ((1131529406376837 / 1125899906842624 : ℚ) * 10 ^ 2) =
      28288235159420925 / 281474976710656 from by norm_num,
    rd_1005prod, truncQ_100half,
    show ((100 : ℚ) / 10 ^ 2) = 1 from by norm_num,
    rd_one]

theorem format_amountF_1005 :
    format_amountF (1131529406376837 / 1125899906842624 : ℚ) = "1.00" := by
  unfold format_amountF formatFixedF
  rw [truncarF_1005, rte_one_fmt]
  decide

/-! ## Claim theorems -/

/-- C1: for every `CufeInput`, `calculate_cufe` returns the lowercase
hexadecimal SHA-384 digest of the UTF-8 bytes of the concatenation
number ‖ issueDate ‖ issueTime ‖ formatted subtotal ‖ "01" ‖ formatted
IVA ‖ "04" ‖ formatted INC ‖ "03" ‖ formatted ICA ‖ formatted total ‖
supplier id ‖ customer id ‖ technical key ‖ environment flag, in exactly
that order. -/
theorem cufe_is_sha384_of_ordered_concatenation (d : CufeInput) :
    calculate_cufe d = sha384Hex (utf8Encode
      (d.number ++ d.issue_date ++ d.issue_time ++
       format_amount d.subtotal ++ "01" ++ format_amount d.iva_amount ++
       "04" ++ format_amount d.inc_amount ++ "03" ++ format_amount d.ica_amount ++
       format_amount d.total ++ d.supplier_nit ++ d.customer_nit ++
       d.technical_key ++ d.environment)) := rfl

/-- C2 counterexample: under binary64 semantics the claim "truncation,
never rounding, of the monetary value" fails.  The Python literal `1.18`
stores the double `roundDouble (118/100)`, which is strictly below
`118/100`; the exact two-decimal truncation of that stored value is
`1.17`; yet `format_amount(1.18)` renders `"1.18"`, a value strictly
above the stored input — the pipeline rounded the stored monetary value
up.  (The multiplication `1.18 * 100` rounds up to exactly `118.0`
before `math.trunc` runs, so the truncation step has nothing left to cut.) -/
theorem format_amount_rounds_up_at_double_118 :
    roundDouble (118 / 100 : ℚ) < 118 / 100 ∧
    format_amountF (roundDouble (118 / 100 : ℚ)) = "1.18" ∧
    (truncQ (roundDouble (118 / 100 : ℚ) * 10 ^ 2) : ℚ) / 10 ^ 2 =
      117 / 100 := by
  refine ⟨?_, ?_, ?_⟩
  · rw [rd_118]
    norm_num
  · rw [rd_118]
    exact format_amountF_of_double_118
  · rw [rd_118,
      show ((5314247560297185 / 4503599627370496 : ℚ) * 10 ^ 2) =
        132856189007429625 / 1125899906842624 from by norm_num]
    have ht : truncQ (132856189007429625 / 1125899906842624 : ℚ) = 117 := by
      rw [truncQ_nonneg (by norm_num)]
      rw [Int.floor_eq_iff] <;> norm_num
    rw [ht]
    norm_num

/-- C2 amended: under binary64 semantics `format_amount` truncates the
*rounded product* `fl(v * 100)` toward zero, not the monetary value `v`
itself: `truncar` computes `fl(trunc(fl(v * 100)) / 100)` and the
truncation step never increases the magnitude of `fl(v * 100)`.  The
spec's two examples still hold for the doubles the literals `99.995` and
`1.005` store (their products round down), giving `"99.99"` and
`"1.00"`. -/
theorem format_amount_truncates_rounded_product :
    format_amountF (roundDouble (99995 / 1000 : ℚ)) = "99.99" ∧
    format_amountF (roundDouble (1005 / 1000 : ℚ)) = "1.00" ∧
    (∀ v : ℚ, truncarF v 2 =
      roundDouble ((truncQ (roundDouble (v * 10 ^ 2)) : ℚ) / 10 ^ 2)) ∧
    (∀ v : ℚ, |(truncQ (roundDouble (v * 10 ^ 2)) : ℚ)| ≤
      |roundDouble (v * 10 ^ 2)|) := by
  refine ⟨?_, ?_, fun v => rfl, fun v => truncQ_abs_le _⟩
  · rw [rd_99995]
    exact format_amountF_99995
  · rw [rd_1005]
    exact format_amountF_1005

theorem stringMk_length (l : List Char) : (String.mk l).length = l.length := rfl

theorem bytesToHex_length (bs : List Nat) :
    (bytesToHex bs).length = 2 * bs.length := by
  unfold bytesToHex
  rw [stringMk_length]
  induction bs with
  | nil => rfl
  | cons b bs ih =>
    simp only [List.flatMap_cons, List.length_append, List.length_cons, ih,
      byteToHex, List.length_nil]
    omega

theorem sha384Bytes_length (msg : List Nat) : (sha384Bytes msg).length = 48 := by
  simp [sha384Bytes, word8be]

theorem hexChar_mem (n : Nat) : hexChars.contains (hexChar n) = true := by
  by_cases h : n < 16
  · interval_cases n <;> decide
  · unfold hexChar
    rw [List.getD_eq_default]
    · decide
    · rw [show hexChars.length = 16 from rfl]
      omega

theorem bytesToHex_all_hex (bs : List Nat) :
    ((bytesToHex bs).toList.all (fun c => hexChars.contains c)) = true := by
  unfold bytesToHex
  rw [show (String.mk (bs.flatMap byteToHex)).toList = bs.flatMap byteToHex from rfl]
  rw [List.all_eq_true]
  intro c hc
  rw [List.mem_flatMap] at hc
  obtain ⟨b, _, hcb⟩ := hc
  simp only [byteToHex, List.mem_cons, List.not_mem_nil, or_false] at hcb
  rcases hcb with rfl | rfl <;> exact hexChar_mem _

theorem sha384Hex_length (msg : List Nat) : (sha384Hex msg).length = 96 := by
  unfold sha384Hex
  rw [bytesToHex_length, sha384Bytes_length]

theorem calculate_cude_eq_sha (d : CufeInput) (pin : Option String) :
    ∃ msg, calculate_cude d pin = sha384Hex msg := by
  rcases pin with _ | p
  · exact ⟨_, rfl⟩
  · by_cases h : p = ""
    · refine ⟨utf8Encode (build_cufe_string d), ?_⟩
      simp [calculate_cude, h]
    · refine ⟨utf8Encode (build_cufe_string { d with technical_key := p }), ?_⟩
      simp [calculate_cude, h]

/-- C9: every computed identifier (CUFE, CUDE, CUDS) is a 96-character
string whose characters are all lowercase hexadecimal digits. -/
theorem identifiers_are_96_lowercase_hex (d : CufeInput) (pin : Option String) :
    (calculate_cufe d).length = 96 ∧
    ((calculate_cufe d).toList.all (fun c => hexChars.contains c)) = true ∧
    (calculate_cude d pin).length = 96 ∧
    ((calculate_cude d pin).toList.all (fun c => hexChars.contains c)) = true ∧
    (calculate_cuds d pin).length = 96 ∧
    ((calculate_cuds d pin).toList.all (fun c => hexChars.contains c)) = true := by
  obtain ⟨msg, hmsg⟩ := calculate_cude_eq_sha d pin
  have hcuds : calculate_cuds d pin = sha384Hex msg := by
    unfold calculate_cuds; exact hmsg
  refine ⟨sha384Hex_length _, bytesToHex_all_hex _, ?_, ?_, ?_, ?_⟩
  · rw [hmsg]; exact sha384Hex_length _
  · rw [hmsg]; exact bytesToHex_all_hex _
  · rw [hcuds]; exact sha384Hex_length _
  · rw [hcuds]; exact bytesToHex_all_hex _

/-- C3 as stated is false on the code: the sign guard raises builtin
`ValueError`, not the `XmlBuildError` of the builders taxonomy.  On a
concrete document with zero `ExtensionContent` containers the result is
an error carrying no `XmlBuildError` (and the unchanged document). -/
theorem sign_without_containers_not_xmlbuilderror :
    (findall ⟨nsExtDefault, "ExtensionContent"⟩ docNoExt).length < 2 ∧
    isXmlBuildErrorResult
      (sign_invoice_xades trivialPrims sampleEnv docNoExt sampleKey sampleCert []
        nsExtDefault) = false ∧
    sign_invoice_xades trivialPrims sampleEnv docNoExt sampleKey sampleCert []
        nsExtDefault =
      .error
        (.valueError "El documento debe tener al menos 2 UBLExtension/ExtensionContent",
         docNoExt) := by
  refine ⟨by decide, by decide, by decide⟩

/-- C3 amended: with fewer than two `ExtensionContent` containers the
XAdES sign fails — with builtin `ValueError` (not `XmlBuildError`) — and
the error propagates before any mutation, so the document tree is left
unmodified. -/
theorem sign_without_containers_valueerror_unmodified (P : CryptoPrims)
    (env : XadesEnv) (invoice : XNode) (key : PrivKey) (cert : Cert)
    (chain : List Cert) (ext_ns : String)
    (h : (findall ⟨ext_ns, "ExtensionContent"⟩ invoice).length < 2) :
    sign_invoice_xades P env invoice key cert chain ext_ns =
      .error
        (.valueError "El documento debe tener al menos 2 UBLExtension/ExtensionContent",
         invoice) := by
  unfold sign_invoice_xades
  rw [if_pos h]

/-- C3 amended, instantiated: the guard fires on the concrete document
with no containers. -/
theorem sign_without_containers_valueerror_unmodified_witness :
    sign_invoice_xades trivialPrims sampleEnvB docNoExt sampleKey sampleCert []
        nsExtDefault =
      .error
        (.valueError "El documento debe tener al menos 2 UBLExtension/ExtensionContent",
         docNoExt) :=
  sign_without_containers_valueerror_unmodified trivialPrims sampleEnvB docNoExt
    sampleKey sampleCert [] nsExtDefault (by decide)

theorem signatureIdsIn_sign_docTwoExt (env : XadesEnv) (k : PrivKey) (c : Cert) :
    signatureIdsIn
      (sign_invoice_xades trivialPrims env docTwoExt k c [] nsExtDefault) =
      [some ("xmldsig-" ++ env.uuidA)] := by
  simp [sign_invoice_xades, findall, descendantsOf, descendantsList, docTwoExt,
    updateAtMatch, updateAtMatchList, appendAtMatch, signatureIdsIn,
    xadesSignature, xadesSignedInfo, xadesKeyInfo, xadesSignedProps,
    xadesCertNode, dsE, xadesE, XNode.tag, XNode.getAttr, XNode.attrs,
    XNode.children, XNode.text, sigId, trivialPrims, nsExtDefault, nsDs, nsXades]

theorem signingTimesIn_sign_docTwoExt (env : XadesEnv) (k : PrivKey) (c : Cert) :
    signingTimesIn
      (sign_invoice_xades trivialPrims env docTwoExt k c [] nsExtDefault) =
      [some env.nowStr] := by
  simp [sign_invoice_xades, findall, descendantsOf, descendantsList, docTwoExt,
    updateAtMatch, updateAtMatchList, appendAtMatch, signingTimesIn,
    xadesSignature, xadesSignedInfo, xadesKeyInfo, xadesSignedProps,
    xadesCertNode, dsE, xadesE, XNode.tag, XNode.getAttr, XNode.attrs,
    XNode.children, XNode.text, sigId, trivialPrims, nsExtDefault, nsDs, nsXades]

/-- C4 as stated is false on the code: two runs on the identical
document, identical key material and the same signing time produce
different outputs, because the source draws fresh `uuid.uuid4()` ids on
every run (and generates the signing time internally via
`datetime.now`, rather than accepting it from the caller). -/
theorem sign_not_determined_by_doc_key_time :
    sampleEnv.nowStr = sampleEnvB.nowStr ∧
    sign_invoice_xades trivialPrims sampleEnv docTwoExt sampleKey sampleCert []
        nsExtDefault ≠
      sign_invoice_xades trivialPrims sampleEnvB docTwoExt sampleKey sampleCert []
        nsExtDefault := by
  exact ⟨rfl, by decide⟩

/-- C4 amended: the output of the XAdES signer is determined only once
the internally generated inputs are fixed as well: the signing time is
read from the clock inside the signer (its value is embedded as the
`xades:SigningTime` text) and the `uuid4`-derived ids are embedded in the
signature (the `Signature` `Id` attribute), so two runs with identical
document, key material and signing time but different uuid draws give
different outputs. -/
theorem sign_deterministic_only_with_ids_and_clock (env env' : XadesEnv)
    (k : PrivKey) (c : Cert)
    (htime : env.nowStr = env'.nowStr) (hid : env.uuidA ≠ env'.uuidA) :
    signingTimesIn
        (sign_invoice_xades trivialPrims env docTwoExt k c [] nsExtDefault) =
      [some env.nowStr] ∧
    signatureIdsIn
        (sign_invoice_xades trivialPrims env docTwoExt k c [] nsExtDefault) =
      [some ("xmldsig-" ++ env.uuidA)] ∧
    sign_invoice_xades trivialPrims env docTwoExt k c [] nsExtDefault ≠
      sign_invoice_xades trivialPrims env' docTwoExt k c [] nsExtDefault := by
  refine ⟨signingTimesIn_sign_docTwoExt env k c,
    signatureIdsIn_sign_docTwoExt env k c, ?_⟩
  intro heq
  apply hid
  have h1 := congrArg signatureIdsIn heq
  rw [signatureIdsIn_sign_docTwoExt, signatureIdsIn_sign_docTwoExt] at h1
  have h2 : "xmldsig-" ++ env.uuidA = "xmldsig-" ++ env'.uuidA := by
    simpa using h1
  have h3 := congrArg String.data h2
  simp only [String.data_append] at h3
  exact String.ext (List.append_cancel_left h3)

/-- C4 amended, instantiated at the two concrete environment draws. -/
theorem sign_deterministic_only_with_ids_and_clock_witness :
    signingTimesIn
        (sign_invoice_xades trivialPrims sampleEnv docTwoExt sampleKey sampleCert
          [] nsExtDefault) =
      [some sampleEnv.nowStr] ∧
    signatureIdsIn
        (sign_invoice_xades trivialPrims sampleEnv docTwoExt sampleKey sampleCert
          [] nsExtDefault) =
      [some ("xmldsig-" ++ sampleEnv.uuidA)] ∧
    sign_invoice_xades trivialPrims sampleEnv docTwoExt sampleKey sampleCert []
        nsExtDefault ≠
      sign_invoice_xades trivialPrims sampleEnvB docTwoExt sampleKey sampleCert []
        nsExtDefault :=
  sign_deterministic_only_with_ids_and_clock sampleEnv sampleEnvB sampleKey
    sampleCert rfl (by decide)

/-- C7: after signing, the children of the resulting `Signature` element
are in schema order — SignedInfo, SignatureValue, KeyInfo, Object for the
XAdES enveloped signature (stated for the signature element the signer
builds, and for the signature found in a signed well-formed document),
and SignedInfo, SignatureValue, KeyInfo for the rebuilt WS-Security
header signature. -/
theorem signature_children_schema_order :
    (∀ (P : CryptoPrims) (env : XadesEnv) (k : PrivKey) (c : Cert)
        (chain : List Cert) (dd : String),
      (xadesSignature P env k c chain dd).children.map XNode.tag =
        [⟨nsDs, "SignedInfo"⟩, ⟨nsDs, "SignatureValue"⟩, ⟨nsDs, "KeyInfo"⟩,
         ⟨nsDs, "Object"⟩]) ∧
    (∀ (P : CryptoPrims) (env : XadesEnv) (k : PrivKey) (c : Cert),
      signatureChildTagsIn
        (sign_invoice_xades P env docTwoExt k c [] nsExtDefault) =
        [[⟨nsDs, "SignedInfo"⟩, ⟨nsDs, "SignatureValue"⟩, ⟨nsDs, "KeyInfo"⟩,
          ⟨nsDs, "Object"⟩]]) ∧
    (∀ (P : CryptoPrims) (ids : WssecIds) (created expires : String)
        (body : XNode) (action endpoint : String) (k : PrivKey) (cb : String),
      ((findFirst ⟨nsDs, "Signature"⟩
          (build_wssec_soap P ids created expires body action endpoint k
            cb)).getD emptyNode).children.map XNode.tag =
        [⟨nsDs, "SignedInfo"⟩, ⟨nsDs, "SignatureValue"⟩, ⟨nsDs, "KeyInfo"⟩]) := by
  refine ⟨fun P env k c chain dd => rfl, ?_, ?_⟩
  · intro P env k c
    simp [sign_invoice_xades, findall, descendantsOf, descendantsList, docTwoExt,
      updateAtMatch, updateAtMatchList, appendAtMatch, signatureChildTagsIn,
      xadesSignature, xadesSignedInfo, xadesKeyInfo, xadesSignedProps,
      xadesCertNode, dsE, xadesE, XNode.tag, XNode.attrs, XNode.children,
      XNode.text, nsExtDefault, nsDs, nsXades]
  · intro P ids created expires body action endpoint k cb
    simp [build_wssec_soap, build_soap_envelope_template, build_signed_info_xml,
      findFirst, findall, descendantsOf, descendantsList, updateAtMatch,
      updateAtMatchList, dsE, XNode.tag, XNode.attrs, XNode.children, XNode.text,
      emptyNode, List.filter_append, nsSoap, nsWsse, nsWsu, nsWsa, nsDs]

/-- C5: the WS-Security signer signs exactly two references — the
Timestamp (whose `wsu:Id` the first reference URI names) and the `wsa:To`
element (named by the second) — and not the SOAP body; the Timestamp
digest uses exclusive C14N with inclusive prefixes `wsu soap`, the To
digest `wsu soap wsa`, and the SignedInfo is canonicalized exclusively
with prefixes `soap wsa` before RSA-SHA256 signing. -/
theorem wssec_signs_timestamp_and_to_only (P : CryptoPrims) (ids : WssecIds)
    (created expires : String) (body : XNode) (action endpoint : String)
    (k : PrivKey) (cb : String) :
    refURIs (siOf (build_wssec_soap P ids created expires body action endpoint
        k cb)) =
      [some ("#" ++ ids.timestamp), some ("#" ++ ids.toId)] ∧
    (tsOf (build_wssec_soap P ids created expires body action endpoint k
        cb)).getAttr "wsu:Id" = some ids.timestamp ∧
    (toElOf (build_wssec_soap P ids created expires body action endpoint k
        cb)).getAttr "wsu:Id" = some ids.toId ∧
    digestTexts (siOf (build_wssec_soap P ids created expires body action
        endpoint k cb)) =
      [some (P.sha256B64 (P.c14nExcl
         (tsOf (build_wssec_soap P ids created expires body action endpoint k cb))
         ["wsu", "soap"])),
       some (P.sha256B64 (P.c14nExcl
         (toElOf (build_wssec_soap P ids created expires body action endpoint k cb))
         ["wsu", "soap", "wsa"]))] ∧
    prefixListsOf (siOf (build_wssec_soap P ids created expires body action
        endpoint k cb)) =
      [some "soap wsa", some "wsu soap", some "wsu soap wsa"] ∧
    ((findFirst ⟨nsDs, "CanonicalizationMethod"⟩
        (siOf (build_wssec_soap P ids created expires body action endpoint k
          cb))).getD emptyNode).getAttr "Algorithm" = some C14N_EXC_ALG ∧
    ((findFirst ⟨nsDs, "SignatureMethod"⟩
        (siOf (build_wssec_soap P ids created expires body action endpoint k
          cb))).getD emptyNode).getAttr "Algorithm" = some RSA_SHA256 ∧
    sigValueTextOf (build_wssec_soap P ids created expires body action endpoint
        k cb) =
      some (P.rsaSignB64 k (P.c14nExcl
        (siOf (build_wssec_soap P ids created expires body action endpoint k cb))
        ["soap", "wsa"])) := by
  refine ⟨?_, ?_, ?_, ?_, ?_, ?_, ?_, ?_⟩ <;>
    simp [build_wssec_soap, build_soap_envelope_template, build_signed_info_xml,
      findFirst, findall, descendantsOf, descendantsList, updateAtMatch,
      updateAtMatchList, dsE, XNode.tag, XNode.attrs, XNode.children, XNode.text,
      XNode.getAttr, emptyNode, List.filter_append, siOf, tsOf, toElOf, refURIs,
      digestTexts, prefixListsOf, sigValueTextOf, nsSoap, nsWsse, nsWsu, nsWsa,
      nsDs, C14N_EXC_ALG, RSA_SHA256, SHA256_ALG]

/-- C8 as stated is false on the code: the test-set parser looks the
error `string` list up only under the wcf.dian.colombia namespace — an
error list present under the schemas.datacontract.org namespace is not
extracted, while the same list under wcf.dian.colombia is. -/
theorem send_parser_error_strings_single_namespace :
    (parse_send_test_set_response "raw"
        (.ok (wrapResp nsDataUpload "string" "Error X"))).error_messages =
      none ∧
    (parse_send_test_set_response "raw"
        (.ok (wrapResp nsWcf "string" "Error X"))).error_messages =
      some ["Error X"] := by
  exact ⟨by decide, by decide⟩

/-- C8 amended: every scalar field (ZipKey, IsValid, StatusCode,
StatusDescription, StatusMessage) and the status-parser ErrorMessage list
are looked up under the schemas.datacontract.org response namespace
first and the wcf.dian.colombia namespace second, so those fields are
extracted when present under either; the test-set parser's error
`string` list alone is looked up only under wcf.dian.colombia. -/
theorem response_fields_two_namespace_lookup (t : String) (ht : t ≠ "") :
    (parse_send_test_set_response "raw"
        (.ok (wrapResp nsDataUpload "ZipKey" t))).zip_key = some t ∧
    (parse_send_test_set_response "raw"
        (.ok (wrapResp nsWcf "ZipKey" t))).zip_key = some t ∧
    (parse_status_response "raw"
        (.ok (wrapResp nsDataDian "IsValid" "true"))).is_valid = some true ∧
    (parse_status_response "raw"
        (.ok (wrapResp nsWcf "IsValid" "false"))).is_valid = some false ∧
    (parse_status_response "raw"
        (.ok (wrapResp nsDataDian "StatusCode" t))).status_code = some t ∧
    (parse_status_response "raw"
        (.ok (wrapResp nsWcf "StatusCode" t))).status_code = some t ∧
    (parse_status_response "raw"
        (.ok (wrapResp nsDataDian "StatusDescription" t))).status_description =
      some t ∧
    (parse_status_response "raw"
        (.ok (wrapResp nsWcf "StatusDescription" t))).status_description =
      some t ∧
    (parse_status_response "raw"
        (.ok (wrapResp nsDataDian "StatusMessage" "m1"))).status_message =
      some "m1" ∧
    (parse_status_response "raw"
        (.ok (wrapResp nsWcf "StatusMessage" "m1"))).status_message =
      some "m1" ∧
    (parse_status_response "raw"
        (.ok (wrapResp nsDataDian "ErrorMessage" t))).error_messages =
      some [t] ∧
    (parse_status_response "raw"
        (.ok (wrapResp nsWcf "ErrorMessage" t))).error_messages = some [t] ∧
    (parse_send_test_set_response "raw"
        (.ok (wrapResp nsWcf "string" t))).error_messages = some [t] ∧
    (parse_send_test_set_response "raw"
        (.ok (wrapResp nsDataUpload "string" t))).error_messages = none := by
  refine ⟨?_, ?_, by decide, by decide, ?_, ?_, ?_, ?_, by decide, by decide,
    ?_, ?_, ?_, ?_⟩ <;>
    simp [parse_send_test_set_response, parse_status_response, wrapResp, find2,
      findall2, findFirst, findall, descendantsOf, descendantsList, textsOf,
      XNode.tag, XNode.text, nsDataUpload, nsDataDian, nsWcf, ht]

/-- C8 amended, instantiated at one concrete error text: ZipKey is
extracted when present only under the data-contract namespace. -/
theorem response_fields_two_namespace_lookup_witness :
    (parse_send_test_set_response "raw"
        (.ok (wrapResp nsDataUpload "ZipKey" "E1"))).zip_key = some "E1" :=
  (response_fields_two_namespace_lookup "E1" (by decide)).1

theorem parse_send_xml_response (raw : String) (parsed : Except PyExn XNode) :
    (parse_send_test_set_response raw parsed).xml_response = some raw := by
  unfold parse_send_test_set_response
  rcases parsed with e | doc
  · rfl
  · dsimp only
    repeat' split
    all_goals rfl

theorem parse_status_xml_response (raw : String) (parsed : Except PyExn XNode) :
    (parse_status_response raw parsed).xml_response = some raw := by
  unfold parse_status_response
  rcases parsed with e | doc
  · rfl
  · dsimp only
    rcases hIV : find2 nsDataDian nsWcf "IsValid" doc with _ | el
    · dsimp only
      repeat' split
      all_goals rfl
    · dsimp only
      rcases hT : el.text with _ | t
      · rfl
      · dsimp only
        repeat' split
        all_goals rfl

/-- C10: the response parsers are total — the embedded `try/except
Exception: pass` structure means every outcome of `etree.fromstring`,
including a parse failure on non-XML input and the one exception-prone
extraction (`IsValid` present without text), yields a response object
whose `xml_response` field holds the raw input string and whose
unextracted fields are all `None`. -/
theorem parsers_total_and_preserve_raw (raw : String)
    (parsed : Except PyExn XNode) :
    (parse_send_test_set_response raw parsed).xml_response = some raw ∧
    (parse_status_response raw parsed).xml_response = some raw ∧
    (∀ e, parsed = .error e →
      parse_send_test_set_response raw parsed = { xml_response := some raw } ∧
      parse_status_response raw parsed = { xml_response := some raw }) ∧
    (∀ doc el, parsed = .ok doc →
      find2 nsDataDian nsWcf "IsValid" doc = some el → el.text = none →
      parse_status_response raw parsed = { xml_response := some raw }) := by
  refine ⟨parse_send_xml_response raw parsed, parse_status_xml_response raw parsed,
    ?_, ?_⟩
  · rintro e rfl
    exact ⟨rfl, rfl⟩
  · rintro doc el rfl hfind htext
    unfold parse_status_response
    dsimp only
    rw [hfind]
    dsimp only
    rw [htext]

/-- C10 instantiated: non-XML input gives the all-`None` response with
the raw string, and an `IsValid` element without text is swallowed. -/
theorem parsers_total_and_preserve_raw_witness :
    (parse_send_test_set_response "not xml" (.error .xmlSyntaxError)) =
        { xml_response := some "not xml" } ∧
      (parse_status_response "not xml" (.error .xmlSyntaxError)) =
        { xml_response := some "not xml" } :=
  (parsers_total_and_preserve_raw "not xml" (.error .xmlSyntaxError)).2.2.1
    .xmlSyntaxError rfl

theorem pollCount_nil : pollCount [] = 0 := rfl

theorem pollCount_cons_poll (a : Nat) (l : List RetryEvent) :
    pollCount (.poll a :: l) = pollCount l + 1 := by
  simp [pollCount, List.countP_cons]

theorem pollCount_cons_sleep (s : Nat) (l : List RetryEvent) :
    pollCount (.sleep s :: l) = pollCount l := by
  simp [pollCount, List.countP_cons]

theorem verifyLoop_poll_bound (oracle : Nat → PollOutcome) (w : Nat) :
    ∀ n m a l, m - a ≤ n → pollCount (verifyLoop oracle w m a l).1 ≤ m - a := by
  intro n
  induction n with
  | zero =>
    intro m a l h
    rw [verifyLoop.eq_def, dif_neg (by omega)]
    simp [loopEnd, pollCount_nil]
  | succ n ih =>
    intro m a l h
    by_cases hlt : a < m
    · rw [verifyLoop.eq_def, dif_pos hlt]
      cases horacle : oracle a with
      | resp r =>
        by_cases hv : r.is_valid.isSome
        · simp [hv, pollCount_cons_poll, pollCount_nil]
          omega
        · by_cases hlast : a < m - 1
          · simp [hv, hlast, pollCount_cons_poll, pollCount_cons_sleep]
            have := ih m (a + 1) (some r) (by omega)
            omega
          · simp [hv, hlast, pollCount_cons_poll]
            have := ih m (a + 1) (some r) (by omega)
            omega
      | exn e =>
        by_cases hlast : a < m - 1
        · simp [hlast, pollCount_cons_poll, pollCount_cons_sleep]
          have := ih m (a + 1) l (by omega)
          omega
        · simp [hlast, pollCount_cons_poll, pollCount_nil]
          omega
    · rw [verifyLoop.eq_def, dif_neg hlt]
      simp [loopEnd, pollCount_nil]

theorem verifyLoop_all_pending (oracle : Nat → PollOutcome) (w m : Nat)
    (f : Nat → GetStatusZipResponse)
    (ho : ∀ k, k < m → oracle k = .resp (f k))
    (hv : ∀ k, k < m → (f k).is_valid = none) :
    ∀ n a l, m - a ≤ n → a < m →
      (verifyLoop oracle w m a l).2 = .ok (f (m - 1)) := by
  intro n
  induction n with
  | zero => intro a l h ha; omega
  | succ n ih =>
    intro a l h ha
    rw [verifyLoop.eq_def, dif_pos ha, ho a ha]
    dsimp only
    by_cases hlast : a < m - 1
    · simp only [hv a ha, Option.isSome_none, Bool.false_eq_true, if_false,
        if_pos hlast]
      exact ih (a + 1) (some (f a)) (by omega) (by omega)
    · simp only [hv a ha, Option.isSome_none, Bool.false_eq_true, if_false,
        if_neg hlast]
      rw [verifyLoop.eq_def, dif_neg (by omega)]
      simp only [loopEnd]
      rw [show a = m - 1 from by omega]

theorem verifyLoop_error_from_last (oracle : Nat → PollOutcome) (w m : Nat) :
    ∀ n a l e, m - a ≤ n → (verifyLoop oracle w m a l).2 = .error e →
      e = .unboundLocalError ∨ oracle (m - 1) = .exn e := by
  intro n
  induction n with
  | zero =>
    intro a l e h hres
    rw [verifyLoop.eq_def, dif_neg (by omega)] at hres
    rcases l with _ | r
    · simp [loopEnd] at hres
      exact Or.inl hres.symm
    · simp [loopEnd] at hres
  | succ n ih =>
    intro a l e h hres
    by_cases hlt : a < m
    · rw [verifyLoop.eq_def, dif_pos hlt] at hres
      cases horacle : oracle a with
      | resp r =>
        rw [horacle] at hres
        dsimp only at hres
        by_cases hv : r.is_valid.isSome
        · simp [hv] at hres
        · by_cases hlast : a < m - 1
          · simp [hv, hlast] at hres
            exact ih (a + 1) (some r) e (by omega) hres
          · simp [hv, hlast] at hres
            exact ih (a + 1) (some r) e (by omega) hres
      | exn ex =>
        rw [horacle] at hres
        dsimp only at hres
        by_cases hlast : a < m - 1
        · simp [hlast] at hres
          exact ih (a + 1) l e (by omega) hres
        · simp [hlast] at hres
          right
          rw [show m - 1 = a from by omega, horacle, hres]
    · rw [verifyLoop.eq_def, dif_neg hlt] at hres
      rcases l with _ | r
      · simp [loopEnd] at hres
        exact Or.inl hres.symm
      · simp [loopEnd] at hres

theorem verify_default_all_pending (oracle : Nat → PollOutcome)
    (f : Nat → GetStatusZipResponse)
    (ho : ∀ k, k < 3 → oracle k = .resp (f k))
    (hv : ∀ k, k < 3 → (f k).is_valid = none) :
    verify_status_with_retry oracle =
      ([.sleep 10, .poll 0, .sleep 10, .poll 1, .sleep 10, .poll 2],
       .ok (f 2)) := by
  have h0 := ho 0 (by omega)
  have h1 := ho 1 (by omega)
  have h2 := ho 2 (by omega)
  have v0 := hv 0 (by omega)
  have v1 := hv 1 (by omega)
  have v2 := hv 2 (by omega)
  have s3 : verifyLoop oracle 10 3 3 (some (f 2)) = ([], .ok (f 2)) := by
    rw [verifyLoop.eq_def, dif_neg (by omega)]
    rfl
  have s2 : verifyLoop oracle 10 3 2 (some (f 1)) = ([.poll 2], .ok (f 2)) := by
    rw [verifyLoop.eq_def, dif_pos (by omega), h2]
    simp [v2, s3]
  have s1 : verifyLoop oracle 10 3 1 (some (f 0)) =
      ([.poll 1, .sleep 10, .poll 2], .ok (f 2)) := by
    rw [verifyLoop.eq_def, dif_pos (by omega), h1]
    simp [v1, s2]
  have s0 : verifyLoop oracle 10 3 0 none =
      ([.poll 0, .sleep 10, .poll 1, .sleep 10, .poll 2], .ok (f 2)) := by
    rw [verifyLoop.eq_def, dif_pos (by omega), h0]
    simp [v0, s1]
  unfold verify_status_with_retry
  simp [s0]

/-- C6: the verification loop polls at most the configured maximum
number of times (any oracle, any configuration); with the defaults
(3 polls, 10-second wait) an authority that never returns a verdict
produces exactly the trace sleep-poll-sleep-poll-sleep-poll and the
caller receives the last pending response, not an exception; and a
transport exception reaches the caller only when the final attempt
raised it. -/
theorem verify_retry_bounded_pending_escalation
    (oracle : Nat → PollOutcome) (f : Nat → GetStatusZipResponse)
    (ho : ∀ k, k < 3 → oracle k = .resp (f k))
    (hv : ∀ k, k < 3 → (f k).is_valid = none) :
    (∀ (oracle2 : Nat → PollOutcome) (w m : Nat),
      pollCount (verify_status_with_retry oracle2 w m).1 ≤ m) ∧
    verify_status_with_retry oracle =
      ([.sleep 10, .poll 0, .sleep 10, .poll 1, .sleep 10, .poll 2],
       .ok (f 2)) ∧
    (∀ (oracle2 : Nat → PollOutcome) (w m : Nat) (e : PyExn),
      (verify_status_with_retry oracle2 w m).2 = .error e →
      e ≠ .unboundLocalError → oracle2 (m - 1) = .exn e) := by
  refine ⟨?_, verify_default_all_pending oracle f ho hv, ?_⟩
  · intro oracle2 w m
    unfold verify_status_with_retry
    dsimp only
    have hb := verifyLoop_poll_bound oracle2 w m m 0 none (by omega)
    by_cases hw : 0 < w
    · simp only [if_pos hw, List.cons_append, List.nil_append,
        pollCount_cons_sleep]
      omega
    · simp only [if_neg hw, List.nil_append]
      omega
  · intro oracle2 w m e hres hne
    have hres2 : (verifyLoop oracle2 w m 0 none).2 = .error e := hres
    have hb := verifyLoop_error_from_last oracle2 w m m 0 none e (by omega) hres2
    rcases hb with hb | hb
    · exact absurd hb hne
    · exact hb

/-- C6 instantiated: a permanently pending authority with the default
configuration yields the 3-poll trace and the pending response. -/
theorem verify_retry_bounded_pending_escalation_witness :
    verify_status_with_retry (fun _ => .resp pendingResp) =
      ([.sleep 10, .poll 0, .sleep 10, .poll 1, .sleep 10, .poll 2],
       .ok pendingResp) :=
  (verify_retry_bounded_pending_escalation (fun _ => .resp pendingResp)
    (fun _ => pendingResp) (fun _ _ => rfl) (fun _ _ => rfl)).2.1

end Facho
